import Mathlib

/-!
Verification of the transaction-analytics and tax/loan computation engine of
the VIRTUSA-JatayuS4-GEOAI_MAVERICK backend.

Shallow embedding conventions:
* Python floats are modelled as exact rationals (ℚ).  Python's `round(x, 2)`
  (round-half-to-even to two decimals) is modelled exactly by `round2`.
* Python dicts that are built by repeated `d[k] += v` are modelled as
  association lists with the upsert `addTo`; iteration order (insertion order)
  is preserved.
* Strings are Lean `String`s; the Python `in` substring test on lowercased
  descriptions is modelled by `subList` on the character lists.
-/

set_option maxRecDepth 8000

/-- Prefix test on character lists (model of Python `str.startswith`,
used only to build the substring test below). -/
def isPre : List Char → List Char → Bool
  | [], _ => true
  | _ :: _, [] => false
  | a :: as, b :: bs => a = b && isPre as bs

/-- Substring occurrence test: `subList needle hay` is true iff `needle`
occurs contiguously in `hay` (model of Python `needle in hay`). -/
def subList (needle : List Char) : List Char → Bool
  | [] => match needle with | [] => true | _ :: _ => false
  | h :: t => isPre needle (h :: t) || subList needle t

/-- ASCII lowercase of one character (model of Python `str.lower` on the
ASCII descriptions this system handles). -/
def lowerChar (c : Char) : Char :=
  if 65 ≤ c.toNat ∧ c.toNat ≤ 90 then Char.ofNat (c.toNat + 32) else c

/-- ASCII lowercase of a string (model of Python `str.lower`). -/
def lowerStr (s : String) : String := ⟨s.data.map lowerChar⟩

/-- `containsAny d kws` models Python `any(k in d for k in kws)` where `d`
is an already-lowercased description. -/
def containsAny (descLower : String) (kws : List String) : Bool :=
  kws.any (fun k => subList k.data descLower.data)

/-- Upsert into an association list: model of `d[k] += v` on a Python
dict/defaultdict (insertion order preserved, key added at the end when new). -/
def addTo (k : String) (v : ℚ) : List (String × ℚ) → List (String × ℚ)
  | [] => [(k, v)]
  | (k', v') :: rest => if k' = k then (k', v' + v) :: rest else (k', v') :: addTo k v rest

/-- Sum of the values of an association list (model of `sum(d.values())`). -/
def valuesSum (m : List (String × ℚ)) : ℚ := (m.map Prod.snd).sum

/-- Lookup with default 0 (model of `d[k]` on a defaultdict(float)). -/
def lookupD (m : List (String × ℚ)) (k : String) : ℚ :=
  match m with
  | [] => 0
  | (k', v) :: rest => if k' = k then v else lookupD rest k

/-- Floor of a rational, as floor division of numerator by denominator. -/
def ratFloor (q : ℚ) : ℤ := q.num.fdiv q.den

/-- Round half to even to an integer (model of Python `round(q)` on exact
values). -/
def roundHalfEven (q : ℚ) : ℤ :=
  let f := ratFloor q
  let r := q - f
  if r < 1/2 then f
  else if 1/2 < r then f + 1
  else if f % 2 = 0 then f else f + 1

/-- Model of Python `round(q, 2)`. -/
def round2 (q : ℚ) : ℚ := (roundHalfEven (q * 100) : ℚ) / 100

namespace Book3
/-!
Model of `src/backend/book3.py` — the head-wise (Mode B) tax engine.
The report-formatting strings (`deduction_description`, `slab_breakdown`
range labels) are presentation-only and are not carried in the model.
-/

/-- Per-head entry of `head_wise_calculation` in
`calculate_head_wise_taxable_income` (book3.py lines 158–163). -/
structure HeadCalc where
  gross_income : ℚ
  deduction_amount : ℚ
  taxable_income : ℚ
deriving DecidableEq, Repr

/-- The per-head `(deduction_amount, taxable_income)` rule of
`calculate_head_wise_taxable_income` (book3.py lines 134–156),
with `STANDARD_DEDUCTION = 75000`. -/
def headDeduction (head : String) (gross : ℚ) : ℚ × ℚ :=
  if head = "salary" then
    (min 75000 gross, max 0 (gross - min 75000 gross))
  else if head = "house_property" then
    (gross * (30/100), max 0 (gross - gross * (30/100)))
  else if head = "business_profession" then (0, gross)
  else if head = "capital_gains" then (0, 0)
  else if head = "other_sources" then (0, gross)
  else (0, gross)

/-- `calculate_head_wise_taxable_income` (book3.py lines 124–171): returns the
head-wise entries (heads with `gross <= 0` are skipped) and
`total_taxable_income` (sum of `taxable_income` over heads other than
`capital_gains`).  The input dict is modelled as an association list in
insertion order. -/
def calculate_head_wise_taxable_income
    (income_heads : List (String × ℚ)) : List (String × HeadCalc) × ℚ :=
  match income_heads with
  | [] => ([], 0)
  | (head, gross) :: rest =>
    let tail := calculate_head_wise_taxable_income rest
    if gross ≤ 0 then tail
    else
      let dt := headDeduction head gross
      ((head, ⟨gross, dt.1, dt.2⟩) :: tail.1,
        (if head = "capital_gains" then 0 else dt.2) + tail.2)

/-- Cumulative-bracket slab computation `calculate_tax_slab`
(book3.py lines 174–200).  A slab is `(limit, rate)`; `none` models
`float('inf')`.  `prev` is `prev_limit`; the two `break`s of the source loop
are the two early exits. -/
def taxSlabAux (income : ℚ) : ℚ → List (Option ℚ × ℚ) → ℚ
  | _, [] => 0
  | prev, (limit, rate) :: rest =>
    if income ≤ prev then 0
    else
      match limit with
      | none => (income - prev) * rate
      | some L =>
        min (income - prev) (L - prev) * rate +
          (if income ≤ L then 0 else taxSlabAux income L rest)

/-- `NEW_REGIME_SLABS` (book3.py lines 91–99). -/
def NEW_REGIME_SLABS : List (Option ℚ × ℚ) :=
  [(some 400000, 0), (some 800000, 5/100), (some 1200000, 10/100),
   (some 1600000, 15/100), (some 2000000, 20/100), (some 2400000, 25/100),
   (none, 30/100)]

/-- Numeric fields of the dict returned by `calculate_tax_liability_enhanced`
(book3.py lines 218–229). -/
structure TaxResult where
  head_wise_calculation : List (String × HeadCalc)
  total_gross_income : ℚ
  total_taxable_income : ℚ
  tax_before_rebate : ℚ
  tax_rebate : ℚ
  tax_after_rebate : ℚ
  health_education_cess : ℚ
  total_tax_liability : ℚ
  effective_tax_rate : ℚ
deriving DecidableEq, Repr

/-- `calculate_tax_liability_enhanced` (book3.py lines 173–229), with
`TAX_REBATE_LIMIT = 1200000`, `TAX_REBATE_AMOUNT = 60000`, cess 4%. -/
def calculate_tax_liability_enhanced (income_heads : List (String × ℚ)) : TaxResult :=
  let hw := calculate_head_wise_taxable_income income_heads
  let T := hw.2
  let tax_liability := taxSlabAux T 0 NEW_REGIME_SLABS
  let tax_rebate := if T ≤ 1200000 then min 60000 tax_liability else 0
  let tax_after := tax_liability - tax_rebate
  let cess := tax_after * (4/100)
  let total_tax := tax_after + cess
  let gross := (income_heads.map Prod.snd).sum
  { head_wise_calculation := hw.1
    total_gross_income := gross
    total_taxable_income := T
    tax_before_rebate := tax_liability
    tax_rebate := tax_rebate
    tax_after_rebate := tax_after
    health_education_cess := cess
    total_tax_liability := total_tax
    effective_tax_rate := if gross > 0 then total_tax / gross * 100 else 0 }

/-- `INCOME_HEAD_KEYWORDS["salary"]["keywords"]` (book3.py line 43). -/
def salaryKeywords : List String :=
  ["salary", "wages", "allowance", "hra", "da", "bonus", "incentive",
   "commission", "gratuity", "pension"]

/-- `INCOME_HEAD_KEYWORDS["house_property"]["keywords"]` (book3.py line 47). -/
def housePropertyKeywords : List String :=
  ["rent", "rental", "property", "house", "apartment", "maintenance",
   "municipal", "property tax"]

/-- `INCOME_HEAD_KEYWORDS["business_profession"]["keywords"]` (book3.py line 51). -/
def businessKeywords : List String :=
  ["business", "profession", "consultancy", "freelance", "service",
   "contract", "invoice", "fees"]

/-- `INCOME_HEAD_KEYWORDS["capital_gains"]["keywords"]` (book3.py line 55). -/
def capitalGainsKeywords : List String :=
  ["shares", "stocks", "mutual fund", "sip", "equity", "bond", "securities",
   "investment", "capital gain"]

/-- `INCOME_HEAD_KEYWORDS["other_sources"]["keywords"]` (book3.py line 59). -/
def otherSourcesKeywords : List String :=
  ["interest", "dividend", "fd", "fixed deposit", "savings", "lottery",
   "gift", "other income"]

/-- `classify_transaction_by_section14` (book3.py lines 108–122): heads are
tried in dict order, keyword-set first.  The per-head regex pattern lists
(tried after the same head's keywords) are not modelled: no claim in this
development exercises a description that matches a pattern without matching a
keyword, and every description used below hits a keyword of the first head
tried. -/
def classify_transaction_by_section14 (description : String) (txn_type : String) : String :=
  let d := lowerStr description
  if containsAny d salaryKeywords then "salary"
  else if containsAny d housePropertyKeywords then "house_property"
  else if containsAny d businessKeywords then "business_profession"
  else if containsAny d capitalGainsKeywords then "capital_gains"
  else if containsAny d otherSourcesKeywords then "other_sources"
  else if txn_type = "received" then "other_sources"
  else "expense"

/-- A transaction as consumed by `analyze_income_by_heads` (amount already
parsed; description and type as stored). -/
structure TaxTxn where
  description : String
  amount : ℚ
  type : String

/-- Initial `head_totals` dict (book3.py line 339): the five heads in
insertion order, each 0. -/
def initHeadTotals : List (String × ℚ) :=
  [("salary", 0), ("house_property", 0), ("business_profession", 0),
   ("capital_gains", 0), ("other_sources", 0)]

/-- The `head_totals` accumulation of `analyze_income_by_heads`
(book3.py lines 343–357): only `received` transactions are classified and
summed into their head. -/
def analyze_income_by_heads (txns : List TaxTxn) : List (String × ℚ) :=
  txns.foldl
    (fun totals t =>
      if t.type = "received" then
        let head := classify_transaction_by_section14 t.description t.type
        if (initHeadTotals.map Prod.fst).contains head then addTo head t.amount totals
        else totals
      else totals)
    initHeadTotals

end Book3


namespace Book1
/-!
Model of the Mode A (flat regime comparison) tax computation of
`src/backend/book1.py`, function `calculate_full_year_tax_optimized`
(lines 286–369).  The persistence (JSON report file) and the textual report
are presentation-level and are not carried in the model; `deductions` is the
sum of the investment-entry amounts of the analysis and is taken here as the
already-summed input.
-/

/-- `calculate_old_regime_tax` (book1.py lines 298–306). -/
def calculate_old_regime_tax (taxable : ℚ) : ℚ :=
  if taxable ≤ 250000 then 0
  else if taxable ≤ 500000 then (taxable - 250000) * (5/100)
  else if taxable ≤ 1000000 then 250000 * (5/100) + (taxable - 500000) * (20/100)
  else 250000 * (5/100) + 500000 * (20/100) + (taxable - 1000000) * (30/100)

/-- The slab list of `calculate_new_regime_tax` (book1.py line 309):
`(slab_width, rate)` pairs. -/
def newRegimeSlabs : List (ℚ × ℚ) :=
  [(300000, 0), (300000, 5/100), (300000, 10/100), (300000, 15/100), (300000, 20/100)]

/-- The slab loop of `calculate_new_regime_tax` (book1.py lines 310–318):
returns `(tax, remaining)` after folding the widths; the source loop's
`break` on `remaining <= 0` is the early exit. -/
def slabFold : List (ℚ × ℚ) → ℚ → ℚ × ℚ
  | [], remaining => (0, remaining)
  | (w, r) :: rest, remaining =>
    if remaining ≤ 0 then (0, remaining)
    else
      let t := min remaining w
      let p := slabFold rest (remaining - t)
      (t * r + p.1, p.2)

/-- `calculate_new_regime_tax` (book1.py lines 308–323): slab fold plus the
30% top rate on any remaining amount. -/
def calculate_new_regime_tax (taxable : ℚ) : ℚ :=
  let p := slabFold newRegimeSlabs taxable
  if 0 < p.2 then p.1 + p.2 * (30/100) else p.1

/-- Numeric result of `calculate_full_year_tax_optimized`
(book1.py lines 336–350). -/
structure FullYearTax where
  taxable_income : ℚ
  tax_old : ℚ
  tax_new : ℚ
  selected_regime : String
  final_estimated_tax : ℚ
deriving DecidableEq, Repr

/-- `calculate_full_year_tax_optimized` (book1.py lines 286–350):
`standard_deduction = 50000`, old-regime tax forced to 0 when
`taxable <= 700000`, regime selection `"Old" if tax_old <= tax_new` and
`estimated_tax = min(tax_old, tax_new)`. -/
def calculate_full_year_tax_optimized (income deductions : ℚ) : FullYearTax :=
  let standard_deduction : ℚ := 50000
  let taxable_income := max 0 (income - deductions - standard_deduction)
  let tax_old0 := calculate_old_regime_tax taxable_income
  let tax_new := calculate_new_regime_tax taxable_income
  let tax_old := if taxable_income ≤ 700000 then 0 else tax_old0
  { taxable_income := taxable_income
    tax_old := tax_old
    tax_new := tax_new
    selected_regime := if tax_old ≤ tax_new then "Old" else "New"
    final_estimated_tax := min tax_old tax_new }

end Book1

namespace NewPy
/-!
Model of `analyze_transactions_comprehensive` of `src/backend/new.py`
(lines 302–384).  Fields not referenced by any claim — `monthly_totals`,
`yearly_totals`, `person_totals`, `investment_entries`, `avoidable_expenses`
(each fed by an independent branch of the same single pass) — are omitted
from the model.  A record whose `float(txn["amount"])` raises is skipped by
the source's per-record `try`/`except`; this is modelled by
`amount : Option ℚ` with `none` for an unparseable amount (the remaining
schema fields are always present in the source data).
-/

/-- `FOOD_KEYWORDS` (new.py line 78). -/
def FOOD_KEYWORDS : List String :=
  ["zomato", "swiggy", "domino", "pizza", "food", "restaurant", "cafe", "meal", "dining"]

/-- `INVESTMENT_KEYWORDS` (new.py line 79). -/
def INVESTMENT_KEYWORDS : List String :=
  ["lic", "elss", "nps", "ppf", "insurance", "mutual fund", "sip", "fd", "fixed deposit"]

/-- A transaction record as consumed by the aggregator:
`type` is `txn.get("type", "")`, `category` is `none` when the key is absent
(the source then defaults it to `"Other"`). -/
structure Txn where
  created_at : String
  description : String
  amount : Option ℚ
  type : String
  category : Option String

/-- First 10 characters of a string (model of Python `s[:10]`). -/
def strTake10 (s : String) : String := ⟨s.data.take 10⟩

/-- The reminder string built for a `loan_payment` transaction
(new.py lines 355–357). -/
def mkReminder (created_at : String) (amount : ℚ) : String :=
  "Loan payment was due on " ++ strTake10 created_at ++ " for ₹" ++ toString amount

/-- The category each classified transaction is resolved to
(new.py lines 323–329): food keyword first, else investment keyword, else the
record's own category defaulting to `"Other"` when absent. -/
def resolvedCategory (t : Txn) : String :=
  let d := lowerStr t.description
  if containsAny d FOOD_KEYWORDS then "food"
  else if containsAny d INVESTMENT_KEYWORDS then "investment"
  else t.category.getD "Other"

/-- Accumulator of the single pass of `analyze_transactions_comprehensive`. -/
structure AnalysisAcc where
  category_totals : List (String × ℚ)
  total_income : ℚ
  total_expense : ℚ
  reminders : List String
deriving DecidableEq, Repr

/-- One iteration of the transaction loop of
`analyze_transactions_comprehensive` (new.py lines 317–371). -/
def analyzeStep (st : AnalysisAcc) (t : Txn) : AnalysisAcc :=
  match t.amount with
  | none => st
  | some amount =>
    { category_totals := addTo (resolvedCategory t) amount st.category_totals
      total_income := if t.type = "received" then st.total_income + amount else st.total_income
      total_expense :=
        if t.type = "sent" ∨ t.type = "expense" then st.total_expense + amount
        else st.total_expense
      reminders :=
        if t.type = "loan_payment" then st.reminders ++ [mkReminder t.created_at amount]
        else st.reminders }

/-- The analysis snapshot returned by `analyze_transactions_comprehensive`
(new.py lines 373–384), restricted to the claim-relevant fields. -/
structure Analysis where
  category_totals : List (String × ℚ)
  total_income : ℚ
  total_expense : ℚ
  reminders : List String
  net_savings : ℚ
deriving DecidableEq, Repr

/-- `analyze_transactions_comprehensive` (new.py lines 302–384): `{}` (here
`none`) on an empty batch, otherwise one fold over the batch with
`net_savings = total_income - total_expense` computed at return. -/
def analyze_transactions_comprehensive (txns : List Txn) : Option Analysis :=
  match txns with
  | [] => none
  | _ :: _ =>
    let acc := txns.foldl analyzeStep ⟨[], 0, 0, []⟩
    some ⟨acc.category_totals, acc.total_income, acc.total_expense, acc.reminders,
      acc.total_income - acc.total_expense⟩

end NewPy

/-- Strip leading and trailing ASCII spaces (model of Python `str.strip` on
the ASCII category labels this system handles). -/
def stripStr (s : String) : String :=
  ⟨((s.data.dropWhile (· = ' ')).reverse.dropWhile (· = ' ')).reverse⟩

/-- Overwrite the value at the first occurrence of a key in an association
list (model of `d[k] = v` for a key already present). -/
def setTo (k : String) (v : ℚ) : List (String × ℚ) → List (String × ℚ)
  | [] => []
  | (k', v') :: rest => if k' = k then (k', v) :: rest else (k', v') :: setTo k v rest

/-- Key membership in an association list (model of `k in d`). -/
def hasKey (m : List (String × ℚ)) (k : String) : Bool := m.any (fun p => p.1 = k)

namespace Loan
/-!
Model of the loan optimization engine `src/backend/loan.py`.
Notes on the embedding:
* The source stores `round(x, 2)` of every schedule field into the output
  DataFrame while the balance recurrence itself runs on the unrounded float
  values; the rows here carry the exact (unrounded) values, and `round2` is
  applied exactly where the source applies it to a value that feeds back into
  the computation (`monthly_emi`, the threshold dict).
* Dates are modelled post-parsing: a transaction carries
  `month : Option ℤ` (calendar-month index of `pd.to_datetime(...,
  errors="coerce")`), `none` for a row whose date fails to parse and is
  dropped by `dropna`.
* The TF-IDF `necessity_flag` labelling (`categorize_nlp`, lines 199–228 and
  354–358) is presentation-level output of an external library and is not
  modelled; no claim refers to it.
-/

/-- `LOAN_OPTIMIZATION_BASE_CATEGORIES` (loan.py lines 8–20). -/
def LOAN_OPTIMIZATION_BASE_CATEGORIES : List (String × ℚ) :=
  [("food", 10/100), ("entertainment", 5/100), ("shopping", 6/100),
   ("travel", 5/100), ("health", 10/100), ("festival", 5/100),
   ("emergency", 10/100), ("investment", 10/100), ("gifts", 5/100),
   ("utilities", 10/100), ("salary", 0)]

/-- `LOAN_OPTIMIZATION_DEFAULT_LOAN_AMOUNT` (loan.py line 25). -/
def LOAN_AMOUNT : ℚ := 1200000

/-- `LOAN_OPTIMIZATION_DEFAULT_INTEREST_RATE` (loan.py line 26). -/
def INTEREST_RATE : ℚ := 9/100

/-- `LOAN_OPTIMIZATION_DEFAULT_LOAN_YEARS` (loan.py line 27). -/
def LOAN_YEARS : ℕ := 5

/-- One row of a repayment schedule (loan.py lines 315–323), with the exact
values (the source stores `round(·, 2)` of each for display). -/
structure SchedRow where
  beginningBalance : ℚ
  emi : ℚ
  principal : ℚ
  interest : ℚ
  endingBalance : ℚ
deriving DecidableEq, Repr

/-- One iteration body of the `while` loop of `generate_repayment_schedule`
(loan.py lines 309–323): interest on the balance, principal as EMI minus
interest, with the final-payment clip (`principal = balance`,
`emi = balance + interest`) when the balance falls below the EMI. -/
def stepRow (r emi balance : ℚ) : SchedRow :=
  let interest := if 0 < r then balance * r else 0
  let principal := if balance < emi then balance else if 0 < r then emi - interest else emi
  let emi2 := if balance < emi then (if 0 < r then balance + interest else balance) else emi
  ⟨balance, emi2, principal, interest, balance - principal⟩

/-- The `while` loop of `generate_repayment_schedule` (loan.py lines
308–331).  `fuel` is `n_months - months_processed`; `month` starts at 6
(June); the possibly clipped EMI is carried forward; after appending a row
the balance is reduced by `min(balance, extra)` whenever the incremented
month index crosses a 12-month boundary, the extra payment is positive and
the balance is still positive. -/
def scheduleAux (r extra : ℚ) : ℕ → ℕ → ℚ → ℚ → List SchedRow
  | 0, _, _, _ => []
  | fuel + 1, month, emi, balance =>
    if 0 < balance then
      let row := stepRow r emi balance
      let month2 := month + 1
      let balance2 :=
        if month2 % 12 = 0 ∧ 0 < extra ∧ 0 < row.endingBalance then
          row.endingBalance - min row.endingBalance extra
        else row.endingBalance
      row :: scheduleAux r extra fuel month2 row.emi balance2
    else []

/-- `generate_repayment_schedule` (loan.py lines 294–332): EMI via the
standard amortization formula (`P/n` when the monthly rate is 0), then the
row loop. -/
def generate_repayment_schedule (loan_amount interest_rate : ℚ) (years : ℕ)
    (extra_annual_payment : ℚ) : List SchedRow :=
  let monthly_interest := interest_rate / 12
  let n_months := years * 12
  let emi :=
    if monthly_interest = 0 then (if 0 < n_months then loan_amount / (n_months : ℚ) else 0)
    else loan_amount * monthly_interest * (1 + monthly_interest) ^ n_months /
      ((1 + monthly_interest) ^ n_months - 1)
  scheduleAux monthly_interest extra_annual_payment n_months 6 emi loan_amount

/-- The EMI recomputed inside `dynamic_threshold_adjuster` (loan.py lines
241–248) from the default loan constants. -/
def adjusterEmi : ℚ :=
  let P := LOAN_AMOUNT
  let R := INTEREST_RATE / 12
  let N := LOAN_YEARS * 12
  if R = 0 then (if 0 < N then P / (N : ℚ) else 0)
  else P * R * (1 + R) ^ N / ((1 + R) ^ N - 1)

/-- The per-lifestyle percentage deltas applied to the base category table
(loan.py lines 253–263). -/
def adjustPerc (lifestyle cat : String) (p : ℚ) : ℚ :=
  if lifestyle = "Unmarried_but_Living_with_family" then
    if cat = "food" then p - 1/100
    else if cat = "festival" then p - 2/100
    else if cat = "entertainment" then p + 1/100
    else p
  else if lifestyle = "Bachelor_Living_Alone" then
    if cat = "food" then p + 2/100
    else if cat = "entertainment" then p + 1/100
    else p
  else if lifestyle = "Married_Living_with_family_with_children" then
    if cat = "food" then p + 2/100
    else if cat = "festival" then p + 2/100
    else if cat = "health" then p + 3/100
    else p
  else p

/-- `dynamic_threshold_adjuster` (loan.py lines 240–270): note that it
subtracts its own recomputed EMI from the `salary` argument
(`remaining_amount = max(salary - emi, 0)`) before applying the adjusted
percentages; the `salary` key is excluded from the threshold dict and each
threshold is `max(0, round(remaining_amount * perc, 2))`. -/
def dynamic_threshold_adjuster (salary : ℚ) (lifestyle : String) : List (String × ℚ) :=
  let remaining_amount := max (salary - adjusterEmi) 0
  (LOAN_OPTIMIZATION_BASE_CATEGORIES.filter (fun cp => cp.1 ≠ "salary")).map
    (fun cp => (cp.1, max 0 (round2 (remaining_amount * adjustPerc lifestyle cp.1 cp.2))))

/-- An output row of `calculate_not_necessary_spending` (loan.py lines
272–292): the input columns kept by the claims plus the two assigned
columns. -/
structure NNSRow where
  category : String
  amount : ℚ
  necessary : Bool
  non_essential_amount : ℚ
deriving DecidableEq, Repr

/-- The category normalization applied inside
`calculate_not_necessary_spending` (loan.py line 279):
`str(row["category"]).strip().lower()`. -/
def nnsKey (cat : String) : String := lowerStr (stripStr cat)

/-- The row loop of `calculate_not_necessary_spending` (loan.py lines
278–291), processing `(category, amount)` rows in order (the source sorts
the group by `transaction_date` first; the input list here is taken in that
chronological order) with the running `category_cumulative` dict `cum`.
Returns the assigned rows and the final cumulative dict. -/
def nnsRun (thresholds : List (String × ℚ)) :
    List (String × ℚ) → List (String × ℚ) → List NNSRow × List (String × ℚ)
  | [], cum => ([], cum)
  | (cat, amount) :: rest, cum =>
    let k := nnsKey cat
    if hasKey thresholds k then
      let current := lookupD cum k
      let th := lookupD thresholds k
      if current + amount ≤ th then
        let p := nnsRun thresholds rest (setTo k (current + amount) cum)
        (⟨cat, amount, true, 0⟩ :: p.1, p.2)
      else
        let allowed := max (th - current) 0
        let p := nnsRun thresholds rest (setTo k th cum)
        (⟨cat, amount, false, amount - allowed⟩ :: p.1, p.2)
    else
      let p := nnsRun thresholds rest cum
      (⟨cat, amount, true, 0⟩ :: p.1, p.2)

/-- The initial `category_cumulative` dict (loan.py line 276): every
threshold key mapped to 0. -/
def initCum (thresholds : List (String × ℚ)) : List (String × ℚ) :=
  thresholds.map (fun p => (p.1, 0))

/-- `calculate_not_necessary_spending` (loan.py lines 272–292): the assigned
rows of one month group. -/
def calculate_not_necessary_spending (thresholds : List (String × ℚ))
    (rows : List (String × ℚ)) : List NNSRow :=
  (nnsRun thresholds rows (initCum thresholds)).1

/-- A transaction row of the loan DataFrame after the pipeline's `df_data`
construction (loan.py lines 109–117): `category` defaulted to `"Other"`,
`month` is the parsed calendar-month index (`none` when
`pd.to_datetime(..., errors="coerce")` yields `NaT`). -/
structure LoanTxn where
  month : Option ℤ
  category : String
  amount : ℚ
  description : String
  type : String
deriving DecidableEq, Repr

/-- `infer_lifestyle` (loan.py lines 230–238); categories are compared by
substring after lowercasing. -/
def infer_lifestyle (df : List LoanTxn) : String :=
  if df = [] then "Unmarried_but_Living_with_family"
  else
    let categories := df.map (fun t => lowerStr t.category)
    if categories.any (fun c =>
        subList "school".data c.data || subList "education".data c.data) then
      "Married_Living_with_family_with_children"
    else if (categories.any fun c => subList "rent".data c.data) ∧
        (categories.any fun c => subList "food".data c.data) then
      "Bachelor_Living_Alone"
    else "Unmarried_but_Living_with_family"

/-- The per-month salary of `_run_loan_optimization_core` (loan.py lines
347–348): sum of `received` transactions whose description contains
"salary" or "income" (case-insensitive). -/
def monthSalary (group : List LoanTxn) : ℚ :=
  ((group.filter (fun t =>
      lowerStr t.type = "received" ∧
        (subList "salary".data (lowerStr t.description).data ∨
          subList "income".data (lowerStr t.description).data))).map
    (fun t => t.amount)).sum

/-- `monthly_emi` of the core (loan.py line 341): the first standard-schedule
row's EMI, rounded to 2 decimals. -/
def monthly_emi : ℚ :=
  round2 ((generate_repayment_schedule LOAN_AMOUNT INTEREST_RATE LOAN_YEARS 0).headD
    ⟨0, 0, 0, 0, 0⟩).emi

/-- The per-month threshold derivation of the core (loan.py lines 350–351):
`remaining = max(salary - monthly_emi, 0)` is passed as the *salary* argument
of `dynamic_threshold_adjuster`. -/
def monthThresholds (salary : ℚ) (lifestyle : String) : List (String × ℚ) :=
  dynamic_threshold_adjuster (max (salary - monthly_emi) 0) lifestyle

/-- One row of the core's `monthly_summary` (loan.py lines 364–371). -/
structure MonthlySummary where
  month : ℤ
  salary : ℚ
  loan_emi : ℚ
  remaining_salary : ℚ
  unnecessary_spending : ℚ
  advice : String
deriving DecidableEq, Repr

/-- Result of `_run_loan_optimization_core` (loan.py lines 384–393),
restricted to the claim-relevant fields. -/
structure CoreResult where
  lifestyle : String
  monthly_emi : ℚ
  categorized_transactions : List NNSRow
  monthly_summary : List MonthlySummary
  total_extra_payment : ℚ
deriving DecidableEq, Repr

/-- `_run_loan_optimization_core` (loan.py lines 190–393): date-parse filter
(`dropna`), category normalization (`.str.lower().str.strip()`), lifestyle
inference, standard schedule, calendar-month grouping (pandas `groupby`
yields groups in ascending key order), per-month threshold derivation and
non-essential detection, and the total extra payment. -/
def _run_loan_optimization_core (df0 : List LoanTxn) : CoreResult :=
  let dfp := (df0.filter (fun t => t.month.isSome)).map
    (fun t => { t with category := stripStr (lowerStr t.category) })
  let lifestyle := infer_lifestyle dfp
  let memi := monthly_emi
  let months := ((dfp.map (fun t => t.month.getD 0)).dedup).mergeSort (fun a b => a ≤ b)
  let processed := months.map (fun m =>
    let group := dfp.filter (fun t => t.month.getD 0 = m)
    let salary := monthSalary group
    let remaining := max (salary - memi) 0
    let thresholds := dynamic_threshold_adjuster remaining lifestyle
    let rows := calculate_not_necessary_spending thresholds
      (group.map (fun t => (t.category, t.amount)))
    let unnecessary := (rows.map (fun x => x.non_essential_amount)).sum
    (rows,
      ({ month := m, salary := round2 salary, loan_emi := memi,
         remaining_salary := remaining, unnecessary_spending := unnecessary,
         advice :=
           if 0 < salary ∧ (15/100) * salary < unnecessary then
             "⚠ High unnecessary expenses. Consider reviewing your budget."
           else "✅ Good control on spending!" } : MonthlySummary)))
  let final_rows := (processed.map Prod.fst).flatten
  { lifestyle := lifestyle
    monthly_emi := memi
    categorized_transactions := final_rows
    monthly_summary := processed.map Prod.snd
    total_extra_payment := (final_rows.map (fun x => x.non_essential_amount)).sum }

/-- A raw transaction handed to `loan_optimization_pipeline` before the
`df_data` construction: `category` may be absent (`txn.get("category",
"Other")`), `month` is the parse result of `created_at`. -/
structure RawTxn where
  month : Option ℤ
  category : Option String
  amount : ℚ
  description : String
  type : String

/-- Result of `loan_optimization_pipeline`: either the structured error dict
`{"error": ...}` or the core's result. -/
inductive LoanOptResult where
  | error (msg : String)
  | ok (result : CoreResult)
deriving DecidableEq, Repr

/-- `loan_optimization_pipeline` (loan.py lines 99–188): the only error
returns are for an empty input list (line 106) and for an empty DataFrame
(line 121, unreachable for a non-empty input list); otherwise the core's
result is returned (the formatted markdown output is presentation-level). -/
def loan_optimization_pipeline (txns : List RawTxn) : LoanOptResult :=
  match txns with
  | [] => .error "No transaction data provided for loan optimization."
  | _ :: _ =>
    let df := txns.map (fun t =>
      ({ month := t.month, category := t.category.getD "Other", amount := t.amount,
         description := t.description, type := t.type } : LoanTxn))
    .ok (_run_loan_optimization_core df)

end Loan

/-- Claim-side formula (from the spec's words) for the Mode A old-regime
slabs `[0-250k: 0%, 250k-500k: 5%, 500k-1M: 20%, >1M: 30%]` written as
cumulative bracket arithmetic, to be compared with
`Book1.calculate_old_regime_tax`. -/
def Book1.specOldRegimeSlabTax (t : ℚ) : ℚ :=
  max 0 (min t 500000 - 250000) * (5/100) +
    max 0 (min t 1000000 - 500000) * (20/100) +
    max 0 (t - 1000000) * (30/100)

/-- Well-formedness of a slab list with respect to a starting lower limit:
limits are non-decreasing and rates non-negative (true of
`Book3.NEW_REGIME_SLABS` from limit 0); used by the monotonicity lemmas. -/
def Book3.SlabsWF : ℚ → List (Option ℚ × ℚ) → Prop
  | _, [] => True
  | prev, (none, rate) :: rest => 0 ≤ rate ∧ Book3.SlabsWF prev rest
  | prev, (some L, rate) :: rest => prev ≤ L ∧ 0 ≤ rate ∧ Book3.SlabsWF L rest

/-- Well-formedness of a width/rate slab list: non-negative widths and
rates (true of `Book1.newRegimeSlabs`); used by the monotonicity lemmas. -/
def Book1.SlabsWF (slabs : List (ℚ × ℚ)) : Prop :=
  ∀ p ∈ slabs, 0 ≤ p.1 ∧ 0 ≤ p.2

/-!
## Theorems

First the supporting lemmas, then for each claim C1–C10 one theorem (with a
witness or counterexample where required).
-/

/-- Every entry of the head-wise breakdown has a positive gross and carries
exactly the deduction/taxable pair of its head's rule. -/
theorem Book3.head_wise_mem :
    ∀ (heads : List (String × ℚ)) (e : String × Book3.HeadCalc),
      e ∈ (Book3.calculate_head_wise_taxable_income heads).1 →
      0 < e.2.gross_income ∧
        e.2.deduction_amount = (Book3.headDeduction e.1 e.2.gross_income).1 ∧
        e.2.taxable_income = (Book3.headDeduction e.1 e.2.gross_income).2 := by
  intro heads
  induction heads with
  | nil =>
    intro e he
    simp [Book3.calculate_head_wise_taxable_income] at he
  | cons hd tl ih =>
    intro e he
    obtain ⟨head, gross⟩ := hd
    simp only [Book3.calculate_head_wise_taxable_income] at he
    by_cases hg : gross ≤ 0
    · rw [if_pos hg] at he
      exact ih e he
    · rw [if_neg hg] at he
      rcases List.mem_cons.mp he with h | h
      · subst h
        exact ⟨lt_of_not_le hg, rfl, rfl⟩
      · exact ih e h

/-- `total_taxable_income` is the sum of the taxable incomes of the entries
other than `capital_gains`. -/
theorem Book3.head_wise_total :
    ∀ heads : List (String × ℚ),
      (Book3.calculate_head_wise_taxable_income heads).2 =
        ((((Book3.calculate_head_wise_taxable_income heads).1.filter
            (fun e => e.1 ≠ "capital_gains")).map
          (fun e => e.2.taxable_income)).sum) := by
  intro heads
  induction heads with
  | nil => simp [Book3.calculate_head_wise_taxable_income]
  | cons hd tl ih =>
    obtain ⟨head, gross⟩ := hd
    by_cases hg : gross ≤ 0
    · simpa [Book3.calculate_head_wise_taxable_income, hg] using ih
    · by_cases hc : head = "capital_gains"
      · simp [Book3.calculate_head_wise_taxable_income, hg, hc, ih]
      · simp [Book3.calculate_head_wise_taxable_income, hg, hc, ih]

example :
    Book3.analyze_income_by_heads [⟨"Salary - March 2025", 5000, "received"⟩] =
      [("salary", 5000), ("house_property", 0), ("business_profession", 0),
       ("capital_gains", 0), ("other_sources", 0)] := by
  have hc : Book3.classify_transaction_by_section14 "Salary - March 2025" "received" =
      "salary" := by with_unfolding_all decide
  simp [Book3.analyze_income_by_heads, hc, Book3.initHeadTotals, addTo]

/-- C1: for every income-heads mapping, the head-wise computation applies
exactly the per-head deduction rules — salary: `min(75000, gross)`;
house_property: 30% of gross; business_profession and other_sources: 0;
capital_gains: taxable forced to 0 and excluded from `total_taxable_income`
regardless of gross — and the single received salary transaction of 5000
yields gross 5000, deduction 5000, taxable 0, and total tax 0. -/
theorem C1_head_wise_deduction_rules :
    (∀ (heads : List (String × ℚ)) (e : String × Book3.HeadCalc),
      e ∈ (Book3.calculate_head_wise_taxable_income heads).1 →
      (e.1 = "salary" →
        e.2.deduction_amount = min 75000 e.2.gross_income ∧
          e.2.taxable_income = max 0 (e.2.gross_income - e.2.deduction_amount)) ∧
      (e.1 = "house_property" → e.2.deduction_amount = e.2.gross_income * (30/100)) ∧
      (e.1 = "business_profession" → e.2.deduction_amount = 0) ∧
      (e.1 = "other_sources" → e.2.deduction_amount = 0) ∧
      (e.1 = "capital_gains" → e.2.taxable_income = 0)) ∧
    (∀ heads : List (String × ℚ),
      (Book3.calculate_head_wise_taxable_income heads).2 =
        ((((Book3.calculate_head_wise_taxable_income heads).1.filter
            (fun e => e.1 ≠ "capital_gains")).map
          (fun e => e.2.taxable_income)).sum)) ∧
    (Book3.analyze_income_by_heads [⟨"Salary - March 2025", 5000, "received"⟩] =
      [("salary", 5000), ("house_property", 0), ("business_profession", 0),
       ("capital_gains", 0), ("other_sources", 0)]) ∧
    (Book3.calculate_head_wise_taxable_income
        (Book3.analyze_income_by_heads [⟨"Salary - March 2025", 5000, "received"⟩]) =
      ([("salary", ⟨5000, 5000, 0⟩)], 0)) ∧
    (Book3.calculate_tax_liability_enhanced
        (Book3.analyze_income_by_heads
          [⟨"Salary - March 2025", 5000, "received"⟩])).total_tax_liability = 0 := by
  have hana :
      Book3.analyze_income_by_heads [⟨"Salary - March 2025", 5000, "received"⟩] =
        [("salary", 5000), ("house_property", 0), ("business_profession", 0),
         ("capital_gains", 0), ("other_sources", 0)] := by
    have hc : Book3.classify_transaction_by_section14 "Salary - March 2025" "received" =
        "salary" := by with_unfolding_all decide
    simp [Book3.analyze_income_by_heads, hc, Book3.initHeadTotals, addTo]
  refine ⟨?_, Book3.head_wise_total, hana, ?_, ?_⟩
  · intro heads e he
    obtain ⟨hg, hd, ht⟩ := Book3.head_wise_mem heads e he
    refine ⟨?_, ?_, ?_, ?_, ?_⟩ <;> intro h1 <;> rw [h1] at hd ht <;>
      simp [Book3.headDeduction] at hd ht
    · exact ⟨hd, by
        rw [ht, hd]
        exact (max_eq_right (sub_nonneg.mpr (min_le_right _ _))).symm⟩
    · exact hd
    · exact hd
    · exact hd
    · exact ht
  · rw [hana]
    norm_num [Book3.calculate_head_wise_taxable_income, Book3.headDeduction]
  · rw [hana]
    simp [Book3.calculate_tax_liability_enhanced, Book3.calculate_head_wise_taxable_income,
      Book3.headDeduction, Book3.taxSlabAux, Book3.NEW_REGIME_SLABS]
    norm_num

/-- Witness for C1 at the concrete mapping `{salary: 100000}`: its entry is
present and satisfies the salary deduction rule. -/
theorem C1_witness :
    (("salary", (⟨100000, 75000, 25000⟩ : Book3.HeadCalc)) ∈
        (Book3.calculate_head_wise_taxable_income [("salary", 100000)]).1) ∧
    (⟨100000, 75000, 25000⟩ : Book3.HeadCalc).deduction_amount =
      min 75000 (⟨100000, 75000, 25000⟩ : Book3.HeadCalc).gross_income := by
  have hmem : ("salary", (⟨100000, 75000, 25000⟩ : Book3.HeadCalc)) ∈
      (Book3.calculate_head_wise_taxable_income [("salary", 100000)]).1 := by
    norm_num [Book3.calculate_head_wise_taxable_income, Book3.headDeduction, min_def, max_def]
  exact ⟨hmem, ((C1_head_wise_deduction_rules.1 [("salary", 100000)] _ hmem).1 rfl).1⟩

/-- C2: in the Mode B computation, for every income-heads input the rebate is
`min(60000, tax_before_rebate)` when `total_taxable_income <= 1,200,000` and 0
when it exceeds it; `cess = 4%` of `(tax_before_rebate - rebate)` and
`total_tax_liability = (tax_before_rebate - rebate) + cess`; at exactly
1,200,000 the rebate is granted (60000) and at 1,200,001 it is 0. -/
theorem C2_rebate_and_cess :
    (∀ heads : List (String × ℚ),
      ((Book3.calculate_tax_liability_enhanced heads).total_taxable_income ≤ 1200000 →
        (Book3.calculate_tax_liability_enhanced heads).tax_rebate =
          min 60000 (Book3.calculate_tax_liability_enhanced heads).tax_before_rebate) ∧
      (1200000 < (Book3.calculate_tax_liability_enhanced heads).total_taxable_income →
        (Book3.calculate_tax_liability_enhanced heads).tax_rebate = 0) ∧
      (Book3.calculate_tax_liability_enhanced heads).health_education_cess =
        ((Book3.calculate_tax_liability_enhanced heads).tax_before_rebate -
          (Book3.calculate_tax_liability_enhanced heads).tax_rebate) * (4/100) ∧
      (Book3.calculate_tax_liability_enhanced heads).total_tax_liability =
        ((Book3.calculate_tax_liability_enhanced heads).tax_before_rebate -
          (Book3.calculate_tax_liability_enhanced heads).tax_rebate) +
          (Book3.calculate_tax_liability_enhanced heads).health_education_cess) ∧
    ((Book3.calculate_tax_liability_enhanced [("other_sources", 1200000)]).total_taxable_income =
        1200000 ∧
      (Book3.calculate_tax_liability_enhanced [("other_sources", 1200000)]).tax_rebate = 60000) ∧
    ((Book3.calculate_tax_liability_enhanced [("other_sources", 1200001)]).total_taxable_income =
        1200001 ∧
      (Book3.calculate_tax_liability_enhanced [("other_sources", 1200001)]).tax_rebate = 0) := by
  refine ⟨?_, ⟨?_, ?_⟩, ⟨?_, ?_⟩⟩
  · intro heads
    by_cases hT : (Book3.calculate_head_wise_taxable_income heads).2 ≤ 1200000
    · refine ⟨fun _ => ?_, fun h => absurd hT (not_le.mpr h), ?_, ?_⟩
      all_goals simp [Book3.calculate_tax_liability_enhanced, hT]
    · refine ⟨fun h => absurd h hT, fun _ => ?_, ?_, ?_⟩
      all_goals simp [Book3.calculate_tax_liability_enhanced, hT]
  · simp [Book3.calculate_tax_liability_enhanced, Book3.calculate_head_wise_taxable_income,
      Book3.headDeduction]
    norm_num
  · simp [Book3.calculate_tax_liability_enhanced, Book3.calculate_head_wise_taxable_income,
      Book3.headDeduction, Book3.taxSlabAux, Book3.NEW_REGIME_SLABS]
    norm_num
  · simp [Book3.calculate_tax_liability_enhanced, Book3.calculate_head_wise_taxable_income,
      Book3.headDeduction]
    norm_num
  · simp [Book3.calculate_tax_liability_enhanced, Book3.calculate_head_wise_taxable_income,
      Book3.headDeduction, Book3.taxSlabAux, Book3.NEW_REGIME_SLABS]
    norm_num

/-- Witness for C2 at the concrete mapping `{other_sources: 1000000}`:
its taxable total is within the rebate limit and the rebate equals
`min(60000, tax_before_rebate)`. -/
theorem C2_witness :
    (Book3.calculate_tax_liability_enhanced
        [("other_sources", 1000000)]).total_taxable_income ≤ 1200000 ∧
    (Book3.calculate_tax_liability_enhanced [("other_sources", 1000000)]).tax_rebate =
      min 60000
        (Book3.calculate_tax_liability_enhanced
          [("other_sources", 1000000)]).tax_before_rebate := by
  have hle : (Book3.calculate_tax_liability_enhanced
      [("other_sources", 1000000)]).total_taxable_income ≤ 1200000 := by
    simp [Book3.calculate_tax_liability_enhanced, Book3.calculate_head_wise_taxable_income,
      Book3.headDeduction]
    norm_num
  exact ⟨hle, (C2_rebate_and_cess.1 [("other_sources", 1000000)]).1 hle⟩

/-- The cumulative-bracket slab tax is non-negative on a well-formed slab
list. -/
theorem Book3.taxSlabAux_nonneg :
    ∀ (slabs : List (Option ℚ × ℚ)) (prev income : ℚ),
      Book3.SlabsWF prev slabs → 0 ≤ Book3.taxSlabAux income prev slabs := by
  intro slabs
  induction slabs with
  | nil => intro prev income _; simp [Book3.taxSlabAux]
  | cons hd rest ih =>
    intro prev income hwf
    obtain ⟨limit, rate⟩ := hd
    by_cases h1 : income ≤ prev
    · simp [Book3.taxSlabAux, h1]
    · cases limit with
      | none =>
        obtain ⟨hr, _⟩ := hwf
        simp only [Book3.taxSlabAux, if_neg h1]
        exact mul_nonneg (by linarith [not_le.mp h1]) hr
      | some L =>
        obtain ⟨hL, hr, hrest⟩ := hwf
        simp only [Book3.taxSlabAux, if_neg h1]
        have hmin : 0 ≤ min (income - prev) (L - prev) := by
          have := not_le.mp h1
          exact le_min (by linarith) (by linarith)
        refine add_nonneg (mul_nonneg hmin hr) ?_
        by_cases h2 : income ≤ L
        · simp [h2]
        · simpa [h2] using ih L income hrest

/-- The cumulative-bracket slab tax is monotone in income on a well-formed
slab list. -/
theorem Book3.taxSlabAux_mono :
    ∀ (slabs : List (Option ℚ × ℚ)) (prev i1 i2 : ℚ),
      Book3.SlabsWF prev slabs → i1 ≤ i2 →
      Book3.taxSlabAux i1 prev slabs ≤ Book3.taxSlabAux i2 prev slabs := by
  intro slabs
  induction slabs with
  | nil => intro prev i1 i2 _ _; simp [Book3.taxSlabAux]
  | cons hd rest ih =>
    intro prev i1 i2 hwf h12
    obtain ⟨limit, rate⟩ := hd
    by_cases h1 : i1 ≤ prev
    · calc Book3.taxSlabAux i1 prev ((limit, rate) :: rest) = 0 := by
            simp [Book3.taxSlabAux, h1]
        _ ≤ Book3.taxSlabAux i2 prev ((limit, rate) :: rest) :=
            Book3.taxSlabAux_nonneg _ _ _ hwf
    · have h2 : ¬ i2 ≤ prev := fun h => h1 (le_trans h12 h)
      cases limit with
      | none =>
        obtain ⟨hr, _⟩ := hwf
        simp only [Book3.taxSlabAux, if_neg h1, if_neg h2]
        exact mul_le_mul_of_nonneg_right (by linarith) hr
      | some L =>
        obtain ⟨hL, hr, hrest⟩ := hwf
        simp only [Book3.taxSlabAux, if_neg h1, if_neg h2]
        refine add_le_add (mul_le_mul_of_nonneg_right ?_ hr) ?_
        · exact min_le_min (by linarith) le_rfl
        · by_cases hiL : i1 ≤ L
          · rw [if_pos hiL]
            by_cases hiL2 : i2 ≤ L
            · simp [hiL2]
            · rw [if_neg hiL2]
              exact Book3.taxSlabAux_nonneg _ _ _ hrest
          · have hiL2 : ¬ i2 ≤ L := fun h => hiL (le_trans h12 h)
            rw [if_neg hiL, if_neg hiL2]
            exact ih L i1 i2 hrest h12

/-- The old-regime slab tax of Mode A is monotone in taxable income. -/
theorem Book1.calculate_old_regime_tax_mono (t1 t2 : ℚ) (h : t1 ≤ t2) :
    Book1.calculate_old_regime_tax t1 ≤ Book1.calculate_old_regime_tax t2 := by
  unfold Book1.calculate_old_regime_tax
  split_ifs <;> nlinarith

/-- The slab fold of the Mode A new-regime tax yields a non-negative tax on a
well-formed slab list. -/
theorem Book1.slabFold_tax_nonneg :
    ∀ (slabs : List (ℚ × ℚ)) (rem : ℚ),
      Book1.SlabsWF slabs → 0 ≤ (Book1.slabFold slabs rem).1 := by
  intro slabs
  induction slabs with
  | nil => intro rem _; simp [Book1.slabFold]
  | cons hd rest ih =>
    intro rem hwf
    obtain ⟨w, r⟩ := hd
    obtain ⟨⟨hw, hr⟩, hrest⟩ :
        ((0:ℚ) ≤ w ∧ (0:ℚ) ≤ r) ∧ Book1.SlabsWF rest := by
      refine ⟨hwf (w, r) (List.mem_cons_self _ _), fun p hp => hwf p (List.mem_cons_of_mem _ hp)⟩
    by_cases h0 : rem ≤ 0
    · simp [Book1.slabFold, h0]
    · simp only [Book1.slabFold, if_neg h0]
      refine add_nonneg (mul_nonneg ?_ hr) (ih _ hrest)
      exact le_min (by linarith [not_le.mp h0]) hw

/-- The remaining amount after the slab fold stays non-negative when it
starts non-negative. -/
theorem Book1.slabFold_rem_nonneg :
    ∀ (slabs : List (ℚ × ℚ)) (rem : ℚ), 0 ≤ rem → 0 ≤ (Book1.slabFold slabs rem).2 := by
  intro slabs
  induction slabs with
  | nil => intro rem h; simpa [Book1.slabFold] using h
  | cons hd rest ih =>
    intro rem h
    obtain ⟨w, r⟩ := hd
    by_cases h0 : rem ≤ 0
    · simpa [Book1.slabFold, h0] using h
    · simp only [Book1.slabFold, if_neg h0]
      exact ih _ (by simp [sub_nonneg, min_le_left])

/-- Both components of the Mode A slab fold are monotone in the remaining
amount on a well-formed slab list. -/
theorem Book1.slabFold_mono :
    ∀ (slabs : List (ℚ × ℚ)) (r1 r2 : ℚ),
      Book1.SlabsWF slabs → r1 ≤ r2 →
      (Book1.slabFold slabs r1).1 ≤ (Book1.slabFold slabs r2).1 ∧
        (Book1.slabFold slabs r1).2 ≤ (Book1.slabFold slabs r2).2 := by
  intro slabs
  induction slabs with
  | nil => intro r1 r2 _ h12; simp [Book1.slabFold, h12]
  | cons hd rest ih =>
    intro r1 r2 hwf h12
    obtain ⟨w, r⟩ := hd
    obtain ⟨⟨hw, hr⟩, hrest⟩ :
        ((0:ℚ) ≤ w ∧ (0:ℚ) ≤ r) ∧ Book1.SlabsWF rest := by
      refine ⟨hwf (w, r) (List.mem_cons_self _ _), fun p hp => hwf p (List.mem_cons_of_mem _ hp)⟩
    by_cases h1 : r1 ≤ 0
    · by_cases h2 : r2 ≤ 0
      · simp [Book1.slabFold, h1, h2, h12]
      · simp only [Book1.slabFold, if_pos h1, if_neg h2]
        constructor
        · refine add_nonneg (mul_nonneg ?_ hr) (Book1.slabFold_tax_nonneg _ _ hrest)
          exact le_min (by linarith [not_le.mp h2]) hw
        · exact le_trans h1 (Book1.slabFold_rem_nonneg _ _ (by simp [sub_nonneg, min_le_left]))
    · have h2 : ¬ r2 ≤ 0 := fun h => h1 (le_trans h12 h)
      simp only [Book1.slabFold, if_neg h1, if_neg h2]
      have hmin : min r1 w ≤ min r2 w := min_le_min h12 le_rfl
      have hsub : r1 - min r1 w ≤ r2 - min r2 w := by
        rcases le_total r1 w with hc | hc
        · rw [min_eq_left hc]
          simp [sub_nonneg, min_le_left]
        · rw [min_eq_right hc, min_eq_right (le_trans hc h12)]
          linarith
      obtain ⟨ha, hb⟩ := ih (r1 - min r1 w) (r2 - min r2 w) hrest hsub
      exact ⟨add_le_add (mul_le_mul_of_nonneg_right hmin hr) ha, hb⟩

/-- The new-regime tax of Mode A is monotone in taxable income. -/
theorem Book1.calculate_new_regime_tax_mono (t1 t2 : ℚ) (h : t1 ≤ t2) :
    Book1.calculate_new_regime_tax t1 ≤ Book1.calculate_new_regime_tax t2 := by
  have hwf : Book1.SlabsWF Book1.newRegimeSlabs := by
    intro p hp
    simp [Book1.newRegimeSlabs] at hp
    rcases hp with h | h | h | h | h <;> rw [h] <;> norm_num
  obtain ⟨htax, hrem⟩ := Book1.slabFold_mono Book1.newRegimeSlabs t1 t2 hwf h
  unfold Book1.calculate_new_regime_tax
  by_cases h1 : 0 < (Book1.slabFold Book1.newRegimeSlabs t1).2
  · have h2 : 0 < (Book1.slabFold Book1.newRegimeSlabs t2).2 := lt_of_lt_of_le h1 hrem
    rw [if_pos h1, if_pos h2]
    nlinarith
  · rw [if_neg h1]
    by_cases h2 : 0 < (Book1.slabFold Book1.newRegimeSlabs t2).2
    · rw [if_pos h2]
      nlinarith
    · rw [if_neg h2]
      exact htax

/-- C4: tax-before-rebate is monotone in taxable income for all three slab
calculators: the Mode A old-regime tax, the Mode A new-regime tax, and the
Mode B cumulative-bracket slab tax over `NEW_REGIME_SLABS`. -/
theorem C4_tax_monotonicity (t1 t2 : ℚ) (h : t1 < t2) :
    Book1.calculate_old_regime_tax t1 ≤ Book1.calculate_old_regime_tax t2 ∧
    Book1.calculate_new_regime_tax t1 ≤ Book1.calculate_new_regime_tax t2 ∧
    Book3.taxSlabAux t1 0 Book3.NEW_REGIME_SLABS ≤
      Book3.taxSlabAux t2 0 Book3.NEW_REGIME_SLABS := by
  have hwf : Book3.SlabsWF 0 Book3.NEW_REGIME_SLABS := by
    simp [Book3.SlabsWF, Book3.NEW_REGIME_SLABS]
    norm_num
  exact ⟨Book1.calculate_old_regime_tax_mono t1 t2 h.le,
    Book1.calculate_new_regime_tax_mono t1 t2 h.le,
    Book3.taxSlabAux_mono Book3.NEW_REGIME_SLABS 0 t1 t2 hwf h.le⟩

/-- Witness for C4 at the concrete pair 500000 < 1500000. -/
theorem C4_witness :
    (500000 : ℚ) < 1500000 ∧
    Book1.calculate_old_regime_tax 500000 ≤ Book1.calculate_old_regime_tax 1500000 ∧
    Book1.calculate_new_regime_tax 500000 ≤ Book1.calculate_new_regime_tax 1500000 ∧
    Book3.taxSlabAux 500000 0 Book3.NEW_REGIME_SLABS ≤
      Book3.taxSlabAux 1500000 0 Book3.NEW_REGIME_SLABS :=
  ⟨by norm_num, C4_tax_monotonicity 500000 1500000 (by norm_num)⟩

/-- The source's piecewise old-regime tax equals the spec's cumulative
bracket formula at every taxable income. -/
theorem Book1.old_regime_tax_eq_spec (t : ℚ) :
    Book1.calculate_old_regime_tax t = Book1.specOldRegimeSlabTax t := by
  unfold Book1.calculate_old_regime_tax Book1.specOldRegimeSlabTax
  split_ifs with h1 h2 h3
  · rw [min_eq_left (by linarith : t ≤ (500000:ℚ)),
      min_eq_left (by linarith : t ≤ (1000000:ℚ)),
      max_eq_left (by linarith : t - 250000 ≤ 0),
      max_eq_left (by linarith : t - 500000 ≤ 0),
      max_eq_left (by linarith : t - 1000000 ≤ 0)]
    ring
  · rw [min_eq_left (by linarith : t ≤ (500000:ℚ)),
      min_eq_left (by linarith : t ≤ (1000000:ℚ)),
      max_eq_right (by linarith : (0:ℚ) ≤ t - 250000),
      max_eq_left (by linarith : t - 500000 ≤ 0),
      max_eq_left (by linarith : t - 1000000 ≤ 0)]
    ring
  · rw [min_eq_right (by linarith : (500000:ℚ) ≤ t),
      min_eq_left (by linarith : t ≤ (1000000:ℚ)),
      max_eq_right (by norm_num : (0:ℚ) ≤ 500000 - 250000),
      max_eq_right (by linarith : (0:ℚ) ≤ t - 500000),
      max_eq_left (by linarith : t - 1000000 ≤ 0)]
    ring
  · rw [min_eq_right (by linarith : (500000:ℚ) ≤ t),
      min_eq_right (by linarith : (1000000:ℚ) ≤ t),
      max_eq_right (by norm_num : (0:ℚ) ≤ 500000 - 250000),
      max_eq_right (by norm_num : (0:ℚ) ≤ 1000000 - 500000),
      max_eq_right (by linarith : (0:ℚ) ≤ t - 1000000)]
    ring

/-- C6: in Mode A, `taxable = max(0, income - deductions - 50000)`; the
old-regime tax follows the stated slabs and is forced to 0 when
`taxable <= 700000`; the selected regime is the one with lower or equal tax,
ties favoring Old; and `income = 1,500,000` with zero deductions gives
taxable 1,450,000 and old-regime tax 247,500. -/
theorem C6_flat_regime_comparison :
    (∀ income deductions : ℚ,
      (Book1.calculate_full_year_tax_optimized income deductions).taxable_income =
        max 0 (income - deductions - 50000) ∧
      ((Book1.calculate_full_year_tax_optimized income deductions).taxable_income ≤ 700000 →
        (Book1.calculate_full_year_tax_optimized income deductions).tax_old = 0) ∧
      (700000 < (Book1.calculate_full_year_tax_optimized income deductions).taxable_income →
        (Book1.calculate_full_year_tax_optimized income deductions).tax_old =
          Book1.specOldRegimeSlabTax
            (Book1.calculate_full_year_tax_optimized income deductions).taxable_income) ∧
      ((Book1.calculate_full_year_tax_optimized income deductions).tax_old ≤
          (Book1.calculate_full_year_tax_optimized income deductions).tax_new →
        (Book1.calculate_full_year_tax_optimized income deductions).selected_regime = "Old") ∧
      ((Book1.calculate_full_year_tax_optimized income deductions).tax_new <
          (Book1.calculate_full_year_tax_optimized income deductions).tax_old →
        (Book1.calculate_full_year_tax_optimized income deductions).selected_regime = "New") ∧
      (Book1.calculate_full_year_tax_optimized income deductions).final_estimated_tax =
        min (Book1.calculate_full_year_tax_optimized income deductions).tax_old
          (Book1.calculate_full_year_tax_optimized income deductions).tax_new) ∧
    (Book1.calculate_full_year_tax_optimized 1500000 0).taxable_income = 1450000 ∧
    (Book1.calculate_full_year_tax_optimized 1500000 0).tax_old = 247500 := by
  refine ⟨?_, ?_, ?_⟩
  · intro income deductions
    refine ⟨rfl, ?_, ?_, ?_, ?_, rfl⟩
    · intro h
      simp only [Book1.calculate_full_year_tax_optimized] at h ⊢
      rw [if_pos h]
    · intro h
      simp only [Book1.calculate_full_year_tax_optimized] at h ⊢
      rw [if_neg (not_le.mpr h)]
      exact Book1.old_regime_tax_eq_spec _
    · intro h
      simp only [Book1.calculate_full_year_tax_optimized] at h ⊢
      rw [if_pos h]
    · intro h
      simp only [Book1.calculate_full_year_tax_optimized] at h ⊢
      rw [if_neg (not_le.mpr h)]
  · simp [Book1.calculate_full_year_tax_optimized]
    norm_num
  · simp [Book1.calculate_full_year_tax_optimized, Book1.calculate_old_regime_tax]
    norm_num

/-- Witness for C6: at income 1,500,000 and zero deductions the taxable
income exceeds 700,000 and the old-regime tax matches the spec slab
formula. -/
theorem C6_witness :
    (700000 : ℚ) <
        (Book1.calculate_full_year_tax_optimized 1500000 0).taxable_income ∧
    (Book1.calculate_full_year_tax_optimized 1500000 0).tax_old =
      Book1.specOldRegimeSlabTax
        (Book1.calculate_full_year_tax_optimized 1500000 0).taxable_income := by
  have h : (700000 : ℚ) <
      (Book1.calculate_full_year_tax_optimized 1500000 0).taxable_income := by
    simp [Book1.calculate_full_year_tax_optimized]
    norm_num
  exact ⟨h, ((C6_flat_regime_comparison.1 1500000 0).2.2.1 h)⟩

/-- Upserting adds exactly the inserted value to the total of the map's
values. -/
theorem valuesSum_addTo (k : String) (v : ℚ) :
    ∀ m : List (String × ℚ), valuesSum (addTo k v m) = valuesSum m + v := by
  intro m
  induction m with
  | nil => simp [addTo, valuesSum]
  | cons hd rest ih =>
    obtain ⟨k', v'⟩ := hd
    by_cases hk : k' = k
    · simp [addTo, hk, valuesSum]
      ring
    · simp [addTo, hk, valuesSum] at ih ⊢
      rw [ih]
      ring

/-- Upserting changes only the looked-up key, by the inserted value. -/
theorem lookupD_addTo (k : String) (v : ℚ) :
    ∀ (m : List (String × ℚ)) (c : String),
      lookupD (addTo k v m) c = lookupD m c + if c = k then v else 0 := by
  intro m
  induction m with
  | nil =>
    intro c
    simp only [addTo, lookupD]
    by_cases hc : c = k
    · subst hc
      simp
    · rw [if_neg (fun h => hc h.symm), if_neg hc]
      simp
  | cons hd rest ih =>
    intro c
    obtain ⟨k', v'⟩ := hd
    simp only [addTo]
    by_cases hk : k' = k
    · subst hk
      simp only [if_pos rfl, lookupD]
      by_cases hc : k' = c
      · rw [if_pos hc, if_pos hc, if_pos hc.symm]
      · rw [if_neg hc, if_neg hc, if_neg (fun h => hc h.symm)]
        ring
    · rw [if_neg hk]
      simp only [lookupD]
      by_cases hc : k' = c
      · rw [if_pos hc, if_pos hc, if_neg (fun h : c = k => hk (hc.trans h))]
        ring
      · rw [if_neg hc, if_neg hc, ih]

/-- The category totals of the aggregation fold: total value mass grows by
exactly the parseable amounts. -/
theorem NewPy.fold_valuesSum :
    ∀ (txns : List NewPy.Txn) (st : NewPy.AnalysisAcc),
      valuesSum ((txns.foldl NewPy.analyzeStep st).category_totals) =
        valuesSum st.category_totals + (txns.map (fun t => t.amount.getD 0)).sum := by
  intro txns
  induction txns with
  | nil => intro st; simp
  | cons t rest ih =>
    intro st
    rw [List.foldl_cons, ih]
    cases ht : t.amount with
    | none => simp [NewPy.analyzeStep, ht]
    | some a =>
      simp [NewPy.analyzeStep, ht, valuesSum_addTo]
      ring

/-- The category totals of the aggregation fold, per key: each key collects
exactly the amounts of the transactions resolved to it. -/
theorem NewPy.fold_lookup :
    ∀ (txns : List NewPy.Txn) (st : NewPy.AnalysisAcc) (c : String),
      lookupD ((txns.foldl NewPy.analyzeStep st).category_totals) c =
        lookupD st.category_totals c +
          (txns.map (fun t =>
            if NewPy.resolvedCategory t = c then t.amount.getD 0 else 0)).sum := by
  intro txns
  induction txns with
  | nil => intro st c; simp
  | cons t rest ih =>
    intro st c
    rw [List.foldl_cons, ih]
    cases ht : t.amount with
    | none => simp [NewPy.analyzeStep, ht]
    | some a =>
      simp only [NewPy.analyzeStep, ht, List.map_cons, List.sum_cons]
      rw [lookupD_addTo]
      by_cases hc : NewPy.resolvedCategory t = c
      · simp [hc]
        ring
      · have hcc : ¬ c = NewPy.resolvedCategory t := fun h => hc h.symm
        simp [hc, hcc]

/-- The income accumulator collects exactly the `received` amounts. -/
theorem NewPy.fold_income :
    ∀ (txns : List NewPy.Txn) (st : NewPy.AnalysisAcc),
      (txns.foldl NewPy.analyzeStep st).total_income =
        st.total_income +
          (txns.map (fun t =>
            if t.type = "received" then t.amount.getD 0 else 0)).sum := by
  intro txns
  induction txns with
  | nil => intro st; simp
  | cons t rest ih =>
    intro st
    rw [List.foldl_cons, ih]
    cases ht : t.amount with
    | none => simp [NewPy.analyzeStep, ht]
    | some a =>
      by_cases hr : t.type = "received" <;> simp [NewPy.analyzeStep, ht, hr] <;> ring

/-- The expense accumulator collects exactly the `sent`/`expense` amounts. -/
theorem NewPy.fold_expense :
    ∀ (txns : List NewPy.Txn) (st : NewPy.AnalysisAcc),
      (txns.foldl NewPy.analyzeStep st).total_expense =
        st.total_expense +
          (txns.map (fun t =>
            if t.type = "sent" ∨ t.type = "expense" then t.amount.getD 0 else 0)).sum := by
  intro txns
  induction txns with
  | nil => intro st; simp
  | cons t rest ih =>
    intro st
    rw [List.foldl_cons, ih]
    cases ht : t.amount with
    | none => simp [NewPy.analyzeStep, ht]
    | some a =>
      by_cases hr : t.type = "sent" ∨ t.type = "expense" <;>
        simp [NewPy.analyzeStep, ht, hr] <;> ring

/-- The reminder list collects exactly one reminder per `loan_payment`
transaction with a parseable amount, in order. -/
theorem NewPy.fold_reminders :
    ∀ (txns : List NewPy.Txn) (st : NewPy.AnalysisAcc),
      (txns.foldl NewPy.analyzeStep st).reminders =
        st.reminders ++
          (txns.filter (fun t => t.type = "loan_payment" ∧ t.amount.isSome)).map
            (fun t => NewPy.mkReminder t.created_at (t.amount.getD 0)) := by
  intro txns
  induction txns with
  | nil => intro st; simp
  | cons t rest ih =>
    intro st
    rw [List.foldl_cons, ih]
    cases ht : t.amount with
    | none => simp [NewPy.analyzeStep, ht, List.filter_cons]
    | some a =>
      by_cases hr : t.type = "loan_payment" <;>
        simp [NewPy.analyzeStep, ht, hr, List.filter_cons]

/-- C7: partition property of the aggregator — for every non-empty batch the
sum of all category totals equals the sum of the amounts of all
successfully-classified transactions, and each category total is exactly the
sum of the amounts of the transactions resolved to that category (food
keyword first, then investment keyword, else the record's own category
defaulting to "Other"; `NewPy.resolvedCategory`), with no double counting. -/
theorem C7_partition_property :
    ∀ (txns : List NewPy.Txn) (a : NewPy.Analysis),
      NewPy.analyze_transactions_comprehensive txns = some a →
      valuesSum a.category_totals = (txns.map (fun t => t.amount.getD 0)).sum ∧
      ∀ c : String,
        lookupD a.category_totals c =
          (txns.map (fun t =>
            if NewPy.resolvedCategory t = c then t.amount.getD 0 else 0)).sum := by
  intro txns a ha
  match txns, ha with
  | t :: rest, ha =>
    have hsome :
        a = { category_totals := ((t :: rest).foldl NewPy.analyzeStep ⟨[], 0, 0, []⟩).category_totals
              total_income := ((t :: rest).foldl NewPy.analyzeStep ⟨[], 0, 0, []⟩).total_income
              total_expense := ((t :: rest).foldl NewPy.analyzeStep ⟨[], 0, 0, []⟩).total_expense
              reminders := ((t :: rest).foldl NewPy.analyzeStep ⟨[], 0, 0, []⟩).reminders
              net_savings :=
                ((t :: rest).foldl NewPy.analyzeStep ⟨[], 0, 0, []⟩).total_income -
                  ((t :: rest).foldl NewPy.analyzeStep ⟨[], 0, 0, []⟩).total_expense } := by
      simpa [NewPy.analyze_transactions_comprehensive] using ha.symm
    subst hsome
    constructor
    · rw [NewPy.fold_valuesSum]
      simp [valuesSum]
    · intro c
      rw [NewPy.fold_lookup]
      simp [lookupD]

/-- Witness for C7 at a concrete two-transaction batch. -/
theorem C7_witness :
    (NewPy.analyze_transactions_comprehensive
        [⟨"2025-03-05T00:00:00Z", "Zomato order", some 500, "sent", some "misc"⟩,
         ⟨"2025-03-06T00:00:00Z", "groceries", some 700, "sent", none⟩] =
      some ⟨[("food", 500), ("Other", 700)], 0, 1200, [], -1200⟩) ∧
    valuesSum [("food", 500), ("Other", 700)] = 500 + 700 := by
  constructor
  · have hfood : NewPy.resolvedCategory
        ⟨"2025-03-05T00:00:00Z", "Zomato order", some 500, "sent", some "misc"⟩ = "food" := by
      with_unfolding_all decide
    have hother : NewPy.resolvedCategory
        ⟨"2025-03-06T00:00:00Z", "groceries", some 700, "sent", none⟩ = "Other" := by
      with_unfolding_all decide
    simp [NewPy.analyze_transactions_comprehensive, NewPy.analyzeStep, hfood, hother, addTo]
    norm_num
  · have h := (C7_partition_property
      [⟨"2025-03-05T00:00:00Z", "Zomato order", some 500, "sent", some "misc"⟩,
       ⟨"2025-03-06T00:00:00Z", "groceries", some 700, "sent", none⟩]
      ⟨[("food", 500), ("Other", 700)], 0, 1200, [], -1200⟩ ?_).1
    · simpa using h
    · have hfood : NewPy.resolvedCategory
          ⟨"2025-03-05T00:00:00Z", "Zomato order", some 500, "sent", some "misc"⟩ = "food" := by
        with_unfolding_all decide
      have hother : NewPy.resolvedCategory
          ⟨"2025-03-06T00:00:00Z", "groceries", some 700, "sent", none⟩ = "Other" := by
        with_unfolding_all decide
      simp [NewPy.analyze_transactions_comprehensive, NewPy.analyzeStep, hfood, hother, addTo]
      norm_num

/-- C8: in the aggregator's split, `received` amounts sum into
`total_income`, `sent`/`expense` amounts into `total_expense`, every other
type (including `loan_payment`) into neither; each `loan_payment`
transaction produces exactly one reminder "Loan payment was due on <date>
for ₹<amount>" with date the first 10 characters of `created_at`
(`NewPy.mkReminder`); and `net_savings = total_income - total_expense`
exactly. -/
theorem C8_income_expense_split :
    ∀ (txns : List NewPy.Txn) (a : NewPy.Analysis),
      NewPy.analyze_transactions_comprehensive txns = some a →
      a.total_income =
        (txns.map (fun t => if t.type = "received" then t.amount.getD 0 else 0)).sum ∧
      a.total_expense =
        (txns.map (fun t =>
          if t.type = "sent" ∨ t.type = "expense" then t.amount.getD 0 else 0)).sum ∧
      a.reminders =
        (txns.filter (fun t => t.type = "loan_payment" ∧ t.amount.isSome)).map
          (fun t => NewPy.mkReminder t.created_at (t.amount.getD 0)) ∧
      a.net_savings = a.total_income - a.total_expense := by
  intro txns a ha
  match txns, ha with
  | t :: rest, ha =>
    have hsome :
        a = { category_totals := ((t :: rest).foldl NewPy.analyzeStep ⟨[], 0, 0, []⟩).category_totals
              total_income := ((t :: rest).foldl NewPy.analyzeStep ⟨[], 0, 0, []⟩).total_income
              total_expense := ((t :: rest).foldl NewPy.analyzeStep ⟨[], 0, 0, []⟩).total_expense
              reminders := ((t :: rest).foldl NewPy.analyzeStep ⟨[], 0, 0, []⟩).reminders
              net_savings :=
                ((t :: rest).foldl NewPy.analyzeStep ⟨[], 0, 0, []⟩).total_income -
                  ((t :: rest).foldl NewPy.analyzeStep ⟨[], 0, 0, []⟩).total_expense } := by
      simpa [NewPy.analyze_transactions_comprehensive] using ha.symm
    subst hsome
    refine ⟨?_, ?_, ?_, rfl⟩
    · rw [NewPy.fold_income]
      simp
    · rw [NewPy.fold_expense]
      simp
    · rw [NewPy.fold_reminders]
      simp

/-- Witness for C8 at a concrete batch with one received, one sent and one
loan_payment transaction. -/
theorem C8_witness :
    (NewPy.analyze_transactions_comprehensive
        [⟨"2025-03-05T00:00:00Z", "stipend", some 9000, "received", none⟩,
         ⟨"2025-03-06T00:00:00Z", "groceries", some 700, "sent", none⟩,
         ⟨"2025-03-07T00:00:00Z", "emi", some 2000, "loan_payment", none⟩] =
      some ⟨[("Other", 11700)], 9000, 700,
        [NewPy.mkReminder "2025-03-07T00:00:00Z" 2000], 8300⟩) ∧
    (⟨[("Other", 11700)], 9000, 700,
        [NewPy.mkReminder "2025-03-07T00:00:00Z" 2000], 8300⟩ : NewPy.Analysis).net_savings =
      (⟨[("Other", 11700)], 9000, 700,
        [NewPy.mkReminder "2025-03-07T00:00:00Z" 2000], 8300⟩ : NewPy.Analysis).total_income -
        (⟨[("Other", 11700)], 9000, 700,
          [NewPy.mkReminder "2025-03-07T00:00:00Z" 2000],
          8300⟩ : NewPy.Analysis).total_expense := by
  have h1 : NewPy.resolvedCategory
      ⟨"2025-03-05T00:00:00Z", "stipend", some 9000, "received", none⟩ = "Other" := by
    with_unfolding_all decide
  have h2 : NewPy.resolvedCategory
      ⟨"2025-03-06T00:00:00Z", "groceries", some 700, "sent", none⟩ = "Other" := by
    with_unfolding_all decide
  have h3 : NewPy.resolvedCategory
      ⟨"2025-03-07T00:00:00Z", "emi", some 2000, "loan_payment", none⟩ = "Other" := by
    with_unfolding_all decide
  have hA : NewPy.analyze_transactions_comprehensive
      [⟨"2025-03-05T00:00:00Z", "stipend", some 9000, "received", none⟩,
       ⟨"2025-03-06T00:00:00Z", "groceries", some 700, "sent", none⟩,
       ⟨"2025-03-07T00:00:00Z", "emi", some 2000, "loan_payment", none⟩] =
      some ⟨[("Other", 11700)], 9000, 700,
        [NewPy.mkReminder "2025-03-07T00:00:00Z" 2000], 8300⟩ := by
    simp [NewPy.analyze_transactions_comprehensive, NewPy.analyzeStep, h1, h2, h3, addTo]
    norm_num
  exact ⟨hA, (C8_income_expense_split _ _ hA).2.2.2⟩

/-- `setTo` overwrites exactly the first occurrence of an existing key. -/
theorem lookupD_setTo (k : String) (v : ℚ) :
    ∀ (m : List (String × ℚ)) (c : String),
      lookupD (setTo k v m) c = if c = k ∧ hasKey m k then v else lookupD m c := by
  intro m
  induction m with
  | nil => intro c; simp [setTo, lookupD, hasKey]
  | cons hd rest ih =>
    intro c
    obtain ⟨k', v'⟩ := hd
    by_cases hk : k' = k
    · subst hk
      simp only [setTo, if_pos rfl, lookupD, hasKey, List.any_cons]
      by_cases hc : k' = c
      · simp [hc]
      · have : ¬ c = k' := fun h => hc h.symm
        simp [hc, this]
    · simp only [setTo, if_neg hk, lookupD, hasKey, List.any_cons]
      by_cases hc : k' = c
      · subst hc
        have h2 : ¬ k = k' := fun h => hk h.symm
        simp [hk, h2]
      · have hck : ¬ c = k' := fun h => hc h.symm
        simp only [if_neg hc, ih c, hasKey]
        by_cases hkk : c = k ∧ (rest.any fun p => p.1 = k) = true
      
        · simp [hkk.1, hkk.2, hk]
        · simp only [hasKey] at hkk
          by_cases hck2 : c = k
          · have : ¬ (rest.any fun p => p.1 = k) = true := fun h => hkk ⟨hck2, h⟩
            simp [hck2, this, hk]
          · simp [hck2]

/-- `setTo` does not change the key set. -/
theorem hasKey_setTo (k : String) (v : ℚ) :
    ∀ (m : List (String × ℚ)) (c : String), hasKey (setTo k v m) c = hasKey m c := by
  intro m
  induction m with
  | nil => intro c; simp [setTo]
  | cons hd rest ih =>
    intro c
    obtain ⟨k', v'⟩ := hd
    by_cases hk : k' = k
    · simp [setTo, hk, hasKey, List.any_cons]
    · have h := ih c
      simp only [hasKey] at h ⊢
      simp only [setTo, if_neg hk, List.any_cons, h]

/-- The initial cumulative dict assigns 0 to every key. -/
theorem lookupD_initCum : ∀ (th : List (String × ℚ)) (k : String),
    lookupD (Loan.initCum th) k = 0 := by
  intro th
  induction th with
  | nil => intro k; simp [Loan.initCum, lookupD]
  | cons hd rest ih =>
    intro k
    by_cases hk : hd.1 = k <;> simp [Loan.initCum, lookupD, hk] <;>
      simpa [Loan.initCum] using ih k

/-- The initial cumulative dict has the same keys as the threshold dict. -/
theorem hasKey_initCum : ∀ (th : List (String × ℚ)) (k : String),
    hasKey (Loan.initCum th) k = hasKey th k := by
  intro th k
  simp [Loan.initCum, hasKey, List.any_map]
  rfl

/-- A map whose values are all non-negative has non-negative lookups. -/
theorem lookupD_nonneg :
    ∀ (m : List (String × ℚ)), (∀ p ∈ m, 0 ≤ p.2) → ∀ k, 0 ≤ lookupD m k := by
  intro m
  induction m with
  | nil => intro _ k; simp [lookupD]
  | cons hd rest ih =>
    intro h k
    by_cases hk : hd.1 = k
    · simpa [lookupD, hk] using h hd (List.mem_cons_self _ _)
    · simpa [lookupD, hk] using ih (fun p hp => h p (List.mem_cons_of_mem _ hp)) k

/-- Invariant of the non-essential detector loop: with non-negative amounts
and thresholds, and a cumulative dict that covers the threshold keys and is
pointwise at most the thresholds, every produced row has
`0 <= non_essential_amount <= amount` with 0 exactly on necessary rows, and
the final cumulative dict again covers the keys and stays pointwise at most
the thresholds. -/
theorem Loan.nnsRun_invariant :
    ∀ (rows : List (String × ℚ)) (thresholds cum : List (String × ℚ)),
      (∀ p ∈ rows, 0 ≤ p.2) →
      (∀ k, hasKey thresholds k = true → 0 ≤ lookupD thresholds k) →
      (∀ k, hasKey thresholds k = true → hasKey cum k = true) →
      (∀ k, hasKey thresholds k = true → lookupD cum k ≤ lookupD thresholds k) →
      (∀ row ∈ (Loan.nnsRun thresholds rows cum).1,
        0 ≤ row.non_essential_amount ∧ row.non_essential_amount ≤ row.amount ∧
          (row.non_essential_amount = 0 ↔ row.necessary = true)) ∧
      (∀ k, hasKey thresholds k = true → hasKey (Loan.nnsRun thresholds rows cum).2 k = true) ∧
      (∀ k, hasKey thresholds k = true →
        lookupD (Loan.nnsRun thresholds rows cum).2 k ≤ lookupD thresholds k) := by
  intro rows
  induction rows with
  | nil =>
    intro thresholds cum _ _ hkeys hcum
    refine ⟨?_, hkeys, hcum⟩
    intro row hrow
    simp [Loan.nnsRun] at hrow
  | cons hd rest ih =>
    intro thresholds cum hamts hth hkeys hcum
    obtain ⟨cat, amount⟩ := hd
    have hamt : (0:ℚ) ≤ amount := hamts (cat, amount) (List.mem_cons_self _ _)
    have hrest : ∀ p ∈ rest, (0:ℚ) ≤ p.2 :=
      fun p hp => hamts p (List.mem_cons_of_mem _ hp)
    by_cases hmem : hasKey thresholds (Loan.nnsKey cat) = true
    · by_cases hle :
          lookupD cum (Loan.nnsKey cat) + amount ≤ lookupD thresholds (Loan.nnsKey cat)
      · -- necessary branch: cumulative grows within the threshold
        have hkeys' : ∀ k, hasKey thresholds k = true →
            hasKey (setTo (Loan.nnsKey cat)
              (lookupD cum (Loan.nnsKey cat) + amount) cum) k = true := by
          intro k hk
          rw [hasKey_setTo]
          exact hkeys k hk
        have hcum' : ∀ k, hasKey thresholds k = true →
            lookupD (setTo (Loan.nnsKey cat)
              (lookupD cum (Loan.nnsKey cat) + amount) cum) k ≤ lookupD thresholds k := by
          intro k hk
          rw [lookupD_setTo]
          by_cases hkc : k = Loan.nnsKey cat ∧ hasKey cum (Loan.nnsKey cat) = true
          · rw [if_pos hkc, hkc.1]
            exact hle
          · rw [if_neg hkc]
            exact hcum k hk
        obtain ⟨hrows', hkeys'', hcum''⟩ := ih thresholds _ hrest hth hkeys' hcum'
        simp only [Loan.nnsRun, if_pos hmem, if_pos hle]
        refine ⟨?_, hkeys'', hcum''⟩
        intro row hrow
        rcases List.mem_cons.mp hrow with h | h
        · subst h
          exact ⟨le_refl 0, hamt, by simp⟩
        · exact hrows' row h
      · -- non-essential branch: the cumulative is capped at the threshold
        have hkeys' : ∀ k, hasKey thresholds k = true →
            hasKey (setTo (Loan.nnsKey cat)
              (lookupD thresholds (Loan.nnsKey cat)) cum) k = true := by
          intro k hk
          rw [hasKey_setTo]
          exact hkeys k hk
        have hcum' : ∀ k, hasKey thresholds k = true →
            lookupD (setTo (Loan.nnsKey cat)
              (lookupD thresholds (Loan.nnsKey cat)) cum) k ≤ lookupD thresholds k := by
          intro k hk
          rw [lookupD_setTo]
          by_cases hkc : k = Loan.nnsKey cat ∧ hasKey cum (Loan.nnsKey cat) = true
          · rw [if_pos hkc, hkc.1]
          · rw [if_neg hkc]
            exact hcum k hk
        obtain ⟨hrows', hkeys'', hcum''⟩ := ih thresholds _ hrest hth hkeys' hcum'
        simp only [Loan.nnsRun, if_pos hmem, if_neg hle]
        refine ⟨?_, hkeys'', hcum''⟩
        intro row hrow
        rcases List.mem_cons.mp hrow with h | h
        · subst h
          have hcur : lookupD cum (Loan.nnsKey cat) ≤ lookupD thresholds (Loan.nnsKey cat) :=
            hcum _ hmem
          have hallowed : max (lookupD thresholds (Loan.nnsKey cat) -
              lookupD cum (Loan.nnsKey cat)) 0 =
              lookupD thresholds (Loan.nnsKey cat) - lookupD cum (Loan.nnsKey cat) :=
            max_eq_left (by linarith)
          constructor
          · simp only [hallowed]
            have := not_le.mp hle
            linarith
          constructor
          · simp only [hallowed]
            linarith
          · constructor
            · intro h0
              exfalso
              rw [hallowed] at h0
              dsimp only at h0
              have hgt := not_le.mp hle
              linarith
            · intro h0
              simp at h0
        · exact hrows' row h
    · -- category not tracked: row passes through as necessary
      obtain ⟨hrows', hkeys'', hcum''⟩ := ih thresholds cum hrest hth hkeys hcum
      simp only [Loan.nnsRun, if_neg hmem]
      refine ⟨?_, hkeys'', hcum''⟩
      intro row hrow
      rcases List.mem_cons.mp hrow with h | h
      · subst h
        exact ⟨le_refl 0, hamt, by simp⟩
      · exact hrows' row h

/-- Every threshold the engine constructs is non-negative (each value is
`max(0, round(...))`), justifying the non-negativity hypothesis of C10. -/
theorem Loan.adjuster_thresholds_nonneg (salary : ℚ) (lifestyle : String) :
    ∀ p ∈ Loan.dynamic_threshold_adjuster salary lifestyle, 0 ≤ p.2 := by
  intro p hp
  simp only [Loan.dynamic_threshold_adjuster, List.mem_map] at hp
  obtain ⟨cp, _, hcp⟩ := hp
  rw [← hcp]
  exact le_max_left 0 _

/-- C10: for every month's transaction sequence (in processing order) and
every threshold mapping with non-negative thresholds, given the data-model
invariant `amount >= 0`, each assigned `non_essential_amount` satisfies
`0 <= non_essential_amount <= amount`, it is 0 exactly on rows marked
necessary, and after processing any prefix the running cumulative counter of
every tracked category is at most that category's threshold. -/
theorem C10_non_essential_invariants :
    ∀ (rows thresholds : List (String × ℚ)),
      (∀ p ∈ rows, 0 ≤ p.2) →
      (∀ k, hasKey thresholds k = true → 0 ≤ lookupD thresholds k) →
      (∀ row ∈ Loan.calculate_not_necessary_spending thresholds rows,
        0 ≤ row.non_essential_amount ∧ row.non_essential_amount ≤ row.amount ∧
          (row.non_essential_amount = 0 ↔ row.necessary = true)) ∧
      (∀ n : ℕ, ∀ k, hasKey thresholds k = true →
        lookupD (Loan.nnsRun thresholds (rows.take n) (Loan.initCum thresholds)).2 k ≤
          lookupD thresholds k) := by
  intro rows thresholds hamts hth
  have hkeys : ∀ k, hasKey thresholds k = true →
      hasKey (Loan.initCum thresholds) k = true := by
    intro k hk
    rw [hasKey_initCum]
    exact hk
  have hcum : ∀ k, hasKey thresholds k = true →
      lookupD (Loan.initCum thresholds) k ≤ lookupD thresholds k := by
    intro k hk
    rw [lookupD_initCum]
    exact hth k hk
  constructor
  · exact (Loan.nnsRun_invariant rows thresholds _ hamts hth hkeys hcum).1
  · intro n
    have htake : ∀ p ∈ rows.take n, (0:ℚ) ≤ p.2 :=
      fun p hp => hamts p (List.mem_of_mem_take hp)
    exact (Loan.nnsRun_invariant (rows.take n) thresholds _ htake hth hkeys hcum).2.2

/-- Witness for C10 at rows `[("food",100), ("food",60)]` with threshold
`{food: 120}`: the hypotheses hold and the second row is flagged with
non-essential amount 40. -/
theorem C10_witness :
    (∀ p ∈ [(("food":String), (100:ℚ)), ("food", 60)], 0 ≤ p.2) ∧
    (∀ k, hasKey [(("food":String), (120:ℚ))] k = true →
      0 ≤ lookupD [(("food":String), (120:ℚ))] k) ∧
    (Loan.calculate_not_necessary_spending [("food", 120)] [("food", 100), ("food", 60)] =
      [⟨"food", 100, true, 0⟩, ⟨"food", 60, false, 40⟩]) ∧
    ∀ row ∈ Loan.calculate_not_necessary_spending [("food", 120)]
        [("food", 100), ("food", 60)],
      0 ≤ row.non_essential_amount ∧ row.non_essential_amount ≤ row.amount ∧
        (row.non_essential_amount = 0 ↔ row.necessary = true) := by
  have h1 : ∀ p ∈ [(("food":String), (100:ℚ)), ("food", 60)], 0 ≤ p.2 := by
    intro p hp
    rcases List.mem_cons.mp hp with h | h
    · rw [h]; norm_num
    · simp at h; rw [h]; norm_num
  have h2 : ∀ k, hasKey [(("food":String), (120:ℚ))] k = true →
      0 ≤ lookupD [(("food":String), (120:ℚ))] k := by
    intro k hk
    simp [hasKey] at hk
    simp [lookupD, hk]
  refine ⟨h1, h2, ?_, (C10_non_essential_invariants _ _ h1 h2).1⟩
  have hkey : Loan.nnsKey "food" = "food" := by with_unfolding_all decide
  simp [Loan.calculate_not_necessary_spending, Loan.nnsRun, Loan.initCum, hkey,
    hasKey, lookupD, setTo]
  norm_num

/-- The schedule loop stops on a non-positive balance. -/
theorem Loan.scheduleAux_nil {r extra : ℚ} {fuel month : ℕ} {emi balance : ℚ}
    (h : ¬ 0 < balance) :
    Loan.scheduleAux r extra fuel month emi balance = [] := by
  cases fuel <;> simp [Loan.scheduleAux, h]

/-- The row built by one loop iteration opens at the loop's balance. -/
theorem Loan.stepRow_beginning (r emi balance : ℚ) :
    (Loan.stepRow r emi balance).beginningBalance = balance := rfl

/-- The row built by one loop iteration closes at the balance minus its
principal component. -/
theorem Loan.stepRow_ending (r emi balance : ℚ) :
    (Loan.stepRow r emi balance).endingBalance =
      balance - (Loan.stepRow r emi balance).principal := rfl

/-- Under the balance-interest invariant `balance * r <= emi` the principal
component of a row is non-negative. -/
theorem Loan.stepRow_principal_nonneg {r emi balance : ℚ} (hr : 0 ≤ r)
    (hb : 0 < balance) (hJ1 : balance * r ≤ emi) (hJ2 : 0 ≤ emi) :
    0 ≤ (Loan.stepRow r emi balance).principal := by
  unfold Loan.stepRow
  by_cases hclip : balance < emi
  · simp only [if_pos hclip]
    linarith
  · by_cases hr0 : 0 < r
    · simp only [if_neg hclip, if_pos hr0]
      linarith
    · simp only [if_neg hclip, if_neg hr0]
      exact hJ2

/-- Under the invariant, the row closes at or below its opening balance. -/
theorem Loan.stepRow_ending_le {r emi balance : ℚ} (hr : 0 ≤ r)
    (hb : 0 < balance) (hJ1 : balance * r ≤ emi) (hJ2 : 0 ≤ emi) :
    (Loan.stepRow r emi balance).endingBalance ≤ balance := by
  rw [Loan.stepRow_ending]
  have := Loan.stepRow_principal_nonneg hr hb hJ1 hJ2
  linarith

/-- The invariant is preserved for the carried-forward EMI and any next
balance at most the row's closing balance. -/
theorem Loan.stepRow_J {r emi balance b2 : ℚ} (hr : 0 ≤ r)
    (hb : 0 < balance) (hJ1 : balance * r ≤ emi) (hJ2 : 0 ≤ emi)
    (hb2 : b2 ≤ (Loan.stepRow r emi balance).endingBalance) :
    b2 * r ≤ (Loan.stepRow r emi balance).emi ∧
      0 ≤ (Loan.stepRow r emi balance).emi := by
  unfold Loan.stepRow at hb2 ⊢
  by_cases hclip : balance < emi
  · simp only [if_pos hclip] at hb2 ⊢
    have hb2' : b2 ≤ 0 := by
      linarith
    by_cases hr0 : 0 < r
    · simp only [if_pos hr0]
      constructor
      · nlinarith
      · nlinarith
    · simp only [if_neg hr0]
      have hr' : r = 0 := le_antisymm (not_lt.mp hr0) hr
      constructor
      · rw [hr']
        simp
        linarith
      · linarith
  · simp only [if_neg hclip] at hb2 ⊢
    refine ⟨?_, hJ2⟩
    have hble : b2 ≤ balance := by
      by_cases hr0 : 0 < r
      · simp only [if_pos hr0] at hb2
        nlinarith
      · simp only [if_neg hr0] at hb2
        linarith
    calc b2 * r ≤ balance * r := mul_le_mul_of_nonneg_right hble hr
      _ ≤ emi := hJ1

/-- The first row of a non-empty schedule opens at the loop's balance. -/
theorem Loan.scheduleAux_head_beginning {r extra : ℚ} {fuel month : ℕ}
    {emi balance : ℚ} {row : Loan.SchedRow}
    (h : (Loan.scheduleAux r extra fuel month emi balance).head? = some row) :
    row.beginningBalance = balance := by
  cases fuel with
  | zero => simp [Loan.scheduleAux] at h
  | succ n =>
    by_cases hb : 0 < balance
    · simp only [Loan.scheduleAux, if_pos hb, List.head?_cons, Option.some.injEq] at h
      rw [← h, Loan.stepRow_beginning]
    · simp [Loan.scheduleAux, hb] at h

/-- Under the balance-interest invariant `balance * r <= emi`, the first row
of a non-empty schedule closes at or below its opening balance. -/
theorem Loan.scheduleAux_head_ending_le {r extra : ℚ} {fuel month : ℕ}
    {emi balance : ℚ} {row : Loan.SchedRow} (hr : 0 ≤ r)
    (hJ1 : balance * r ≤ emi) (hJ2 : 0 ≤ emi)
    (h : (Loan.scheduleAux r extra fuel month emi balance).head? = some row) :
    row.endingBalance ≤ balance := by
  cases fuel with
  | zero => simp [Loan.scheduleAux] at h
  | succ n =>
    by_cases hb : 0 < balance
    · simp only [Loan.scheduleAux, if_pos hb, List.head?_cons, Option.some.injEq] at h
      rw [← h]
      exact Loan.stepRow_ending_le hr hb hJ1 hJ2
    · simp [Loan.scheduleAux, hb] at h

/-- With no extra annual payment, consecutive schedule rows chain exactly:
each row opens at the previous row's closing balance. -/
theorem Loan.scheduleAux_chain_zero (r : ℚ) :
    ∀ (fuel month : ℕ) (emi balance : ℚ),
      List.Chain' (fun a b => b.beginningBalance = a.endingBalance)
        (Loan.scheduleAux r 0 fuel month emi balance) := by
  intro fuel
  induction fuel with
  | zero => intro month emi balance; simp [Loan.scheduleAux]
  | succ n ih =>
    intro month emi balance
    by_cases hb : 0 < balance
    · simp only [Loan.scheduleAux, if_pos hb, lt_self_iff_false, false_and, and_false,
        if_false]
      rw [List.chain'_cons']
      refine ⟨?_, ih _ _ _⟩
      intro b hmem
      have hhead := Loan.scheduleAux_head_beginning (Option.mem_def.mp hmem)
      rw [hhead]
    · rw [Loan.scheduleAux_nil hb]
      simp

/-- For any extra payment, the closing balances of consecutive schedule rows
are non-increasing, given the balance-interest invariant. -/
theorem Loan.scheduleAux_antitone (r extra : ℚ) (hr : 0 ≤ r) :
    ∀ (fuel month : ℕ) (emi balance : ℚ),
      balance * r ≤ emi → 0 ≤ emi →
      List.Chain' (fun a b => b.endingBalance ≤ a.endingBalance)
        (Loan.scheduleAux r extra fuel month emi balance) := by
  intro fuel
  induction fuel with
  | zero => intro month emi balance _ _; simp [Loan.scheduleAux]
  | succ n ih =>
    intro month emi balance hJ1 hJ2
    by_cases hb : 0 < balance
    · simp only [Loan.scheduleAux, if_pos hb]
      rw [List.chain'_cons']
      have hb2le :
          (if (month + 1) % 12 = 0 ∧ 0 < extra ∧
              0 < (Loan.stepRow r emi balance).endingBalance then
            (Loan.stepRow r emi balance).endingBalance -
              min (Loan.stepRow r emi balance).endingBalance extra
          else (Loan.stepRow r emi balance).endingBalance) ≤
            (Loan.stepRow r emi balance).endingBalance := by
        split_ifs with hcond
        · have hmin : 0 ≤ min (Loan.stepRow r emi balance).endingBalance extra :=
            le_min hcond.2.2.le hcond.2.1.le
          linarith
        · exact le_rfl
      obtain ⟨hJ1', hJ2'⟩ := Loan.stepRow_J hr hb hJ1 hJ2 hb2le
      refine ⟨?_, ih _ _ _ hJ1' hJ2'⟩
      intro b hmem
      have hend := Loan.scheduleAux_head_ending_le hr hJ1' hJ2' (Option.mem_def.mp hmem)
      exact le_trans hend hb2le
    · rw [Loan.scheduleAux_nil hb]
      simp

/-- With no extra annual payment, the principal components plus the final
closing balance account exactly for the opening balance. -/
theorem Loan.scheduleAux_conservation (r : ℚ) :
    ∀ (fuel month : ℕ) (emi balance : ℚ) (row : Loan.SchedRow),
      (Loan.scheduleAux r 0 fuel month emi balance).getLast? = some row →
      ((Loan.scheduleAux r 0 fuel month emi balance).map Loan.SchedRow.principal).sum +
        row.endingBalance = balance := by
  intro fuel
  induction fuel with
  | zero =>
    intro month emi balance row hlast
    simp [Loan.scheduleAux] at hlast
  | succ n ih =>
    intro month emi balance row hlast
    by_cases hb : 0 < balance
    · have hunf : Loan.scheduleAux r 0 (n + 1) month emi balance =
          Loan.stepRow r emi balance ::
            Loan.scheduleAux r 0 n (month + 1) (Loan.stepRow r emi balance).emi
              (Loan.stepRow r emi balance).endingBalance := by
        simp only [Loan.scheduleAux, if_pos hb, lt_self_iff_false, false_and, and_false,
          if_false]
      rw [hunf] at hlast ⊢
      cases hrest : Loan.scheduleAux r 0 n (month + 1) (Loan.stepRow r emi balance).emi
          (Loan.stepRow r emi balance).endingBalance with
      | nil =>
        rw [hrest] at hlast
        simp only [List.getLast?_singleton, Option.some.injEq] at hlast
        rw [← hlast]
        simp only [List.map_cons, List.map_nil, List.sum_cons, List.sum_nil]
        rw [Loan.stepRow_ending]
        ring
      | cons r1 t =>
        rw [hrest] at hlast
        rw [List.getLast?_cons_cons] at hlast
        have hsum := ih (month + 1) (Loan.stepRow r emi balance).emi
          (Loan.stepRow r emi balance).endingBalance row (by rw [hrest]; exact hlast)
        rw [hrest] at hsum
        rw [List.map_cons, List.sum_cons]
        rw [Loan.stepRow_ending] at hsum
        linarith
    · rw [Loan.scheduleAux_nil hb] at hlast
      simp at hlast

/-- Evaluated loop step for a regular month (no clip, positive rate,
no extra-payment boundary). -/
theorem Loan.scheduleAux_step_reg {r extra : ℚ} {fuel month : ℕ} {emi balance : ℚ}
    (hb : 0 < balance) (hclip : ¬ balance < emi) (hr0 : 0 < r)
    (hm : ¬ ((month + 1) % 12 = 0 ∧ 0 < extra ∧ 0 < balance - (emi - balance * r))) :
    Loan.scheduleAux r extra (fuel + 1) month emi balance =
      ⟨balance, emi, emi - balance * r, balance * r, balance - (emi - balance * r)⟩ ::
        Loan.scheduleAux r extra fuel (month + 1) emi (balance - (emi - balance * r)) := by
  have he : Loan.stepRow r emi balance =
      ⟨balance, emi, emi - balance * r, balance * r, balance - (emi - balance * r)⟩ := by
    unfold Loan.stepRow
    simp only [if_neg hclip, if_pos hr0]
  simp only [Loan.scheduleAux, if_pos hb, he]
  rw [if_neg hm]

/-- Evaluated loop step for the month that crosses a 12-month boundary with a
positive extra payment and a still-positive balance: the carried balance is
additionally reduced by `min(balance, extra)`. -/
theorem Loan.scheduleAux_step_bdry {r extra : ℚ} {fuel month : ℕ} {emi balance : ℚ}
    (hb : 0 < balance) (hclip : ¬ balance < emi) (hr0 : 0 < r)
    (hm : (month + 1) % 12 = 0) (hx : 0 < extra)
    (hpos : 0 < balance - (emi - balance * r)) :
    Loan.scheduleAux r extra (fuel + 1) month emi balance =
      ⟨balance, emi, emi - balance * r, balance * r, balance - (emi - balance * r)⟩ ::
        Loan.scheduleAux r extra fuel (month + 1) emi
          ((balance - (emi - balance * r)) -
            min (balance - (emi - balance * r)) extra) := by
  have he : Loan.stepRow r emi balance =
      ⟨balance, emi, emi - balance * r, balance * r, balance - (emi - balance * r)⟩ := by
    unfold Loan.stepRow
    simp only [if_neg hclip, if_pos hr0]
  simp only [Loan.scheduleAux, if_pos hb, he]
  rw [if_pos ⟨hm, hx, hpos⟩]

/-- C3 (amended): for every loan with non-negative principal and rate, the
standard schedule (no extra payment) chains exactly (each row opens at the
previous row's closing balance) and conserves the principal exactly
(`Σ principal + final closing = principal`); closing balances are
monotonically non-increasing in both the standard schedule and the optimized
schedule with any extra annual payment.  (As stated the original claim fails
for the optimized schedule: at each 12-month boundary the extra payment is
applied to the balance between rows, so the next row opens strictly below
the previous closing balance and the conservation sum is short by the extra
payments; see the counterexample.) -/
theorem C3_amortization_invariants (P rate extra : ℚ) (years : ℕ)
    (hP : 0 ≤ P) (hrate : 0 ≤ rate) :
    List.Chain' (fun a b => b.beginningBalance = a.endingBalance)
      (Loan.generate_repayment_schedule P rate years 0) ∧
    List.Pairwise (fun a b => b.endingBalance ≤ a.endingBalance)
      (Loan.generate_repayment_schedule P rate years 0) ∧
    List.Pairwise (fun a b => b.endingBalance ≤ a.endingBalance)
      (Loan.generate_repayment_schedule P rate years extra) ∧
    ∀ row : Loan.SchedRow,
      (Loan.generate_repayment_schedule P rate years 0).getLast? = some row →
      ((Loan.generate_repayment_schedule P rate years 0).map Loan.SchedRow.principal).sum +
        row.endingBalance = P := by
  haveI : IsTrans Loan.SchedRow (fun a b => b.endingBalance ≤ a.endingBalance) :=
    ⟨fun _ _ _ h1 h2 => le_trans h2 h1⟩
  have hgen : ∀ e : ℚ, Loan.generate_repayment_schedule P rate years e =
      Loan.scheduleAux (rate / 12) e (years * 12) 6
        (if rate / 12 = 0 then (if 0 < years * 12 then P / ((years * 12 : ℕ) : ℚ) else 0)
         else P * (rate / 12) * (1 + rate / 12) ^ (years * 12) /
           ((1 + rate / 12) ^ (years * 12) - 1)) P := fun _ => rfl
  have hmi : (0:ℚ) ≤ rate / 12 := by positivity
  by_cases hn : years * 12 = 0
  · rw [hgen 0, hgen extra, hn]
    refine ⟨by simp [Loan.scheduleAux], by simp [Loan.scheduleAux],
      by simp [Loan.scheduleAux], ?_⟩
    intro row hrow
    simp [Loan.scheduleAux] at hrow
  · have hJ : P * (rate / 12) ≤
        (if rate / 12 = 0 then (if 0 < years * 12 then P / ((years * 12 : ℕ) : ℚ) else 0)
         else P * (rate / 12) * (1 + rate / 12) ^ (years * 12) /
           ((1 + rate / 12) ^ (years * 12) - 1)) ∧
        (0:ℚ) ≤
        (if rate / 12 = 0 then (if 0 < years * 12 then P / ((years * 12 : ℕ) : ℚ) else 0)
         else P * (rate / 12) * (1 + rate / 12) ^ (years * 12) /
           ((1 + rate / 12) ^ (years * 12) - 1)) := by
      by_cases hr0 : rate / 12 = 0
      · rw [if_pos hr0, hr0, mul_zero, if_pos (Nat.pos_of_ne_zero hn)]
        have : (0:ℚ) ≤ P / ((years * 12 : ℕ) : ℚ) := by positivity
        exact ⟨this, this⟩
      · rw [if_neg hr0]
        have hrpos : 0 < rate / 12 := lt_of_le_of_ne hmi (Ne.symm hr0)
        have hX : 1 < (1 + rate / 12) ^ (years * 12) :=
          one_lt_pow (by linarith) hn
        have hX1 : (0:ℚ) < (1 + rate / 12) ^ (years * 12) - 1 := by linarith
        have hdiv : (1:ℚ) ≤ (1 + rate / 12) ^ (years * 12) /
            ((1 + rate / 12) ^ (years * 12) - 1) := by
          rw [le_div_iff hX1]
          linarith
        have hPmi : (0:ℚ) ≤ P * (rate / 12) := mul_nonneg hP hmi
        constructor
        · calc P * (rate / 12) = P * (rate / 12) * 1 := by ring
            _ ≤ P * (rate / 12) *
                ((1 + rate / 12) ^ (years * 12) /
                  ((1 + rate / 12) ^ (years * 12) - 1)) :=
              mul_le_mul_of_nonneg_left hdiv hPmi
            _ = P * (rate / 12) * (1 + rate / 12) ^ (years * 12) /
                ((1 + rate / 12) ^ (years * 12) - 1) := by
              rw [mul_div_assoc]
        · positivity
    refine ⟨?_, ?_, ?_, ?_⟩
    · rw [hgen 0]
      exact Loan.scheduleAux_chain_zero _ _ _ _ _
    · rw [hgen 0, ← List.chain'_iff_pairwise]
      exact Loan.scheduleAux_antitone _ _ hmi _ _ _ _ hJ.1 hJ.2
    · rw [hgen extra, ← List.chain'_iff_pairwise]
      exact Loan.scheduleAux_antitone _ _ hmi _ _ _ _ hJ.1 hJ.2
    · intro row hrow
      rw [hgen 0] at hrow ⊢
      exact Loan.scheduleAux_conservation _ _ _ _ _ _ hrow

/-- Witness for C3 at the engine's default loan terms with a positive extra
annual payment. -/
theorem C3_witness :
    (0:ℚ) ≤ 1200000 ∧ (0:ℚ) ≤ 9/100 ∧
    (List.Chain' (fun a b => b.beginningBalance = a.endingBalance)
      (Loan.generate_repayment_schedule 1200000 (9/100) 5 0) ∧
    List.Pairwise (fun a b => b.endingBalance ≤ a.endingBalance)
      (Loan.generate_repayment_schedule 1200000 (9/100) 5 0) ∧
    List.Pairwise (fun a b => b.endingBalance ≤ a.endingBalance)
      (Loan.generate_repayment_schedule 1200000 (9/100) 5 10000) ∧
    ∀ row : Loan.SchedRow,
      (Loan.generate_repayment_schedule 1200000 (9/100) 5 0).getLast? = some row →
      ((Loan.generate_repayment_schedule 1200000 (9/100) 5 0).map
          Loan.SchedRow.principal).sum + row.endingBalance = 1200000) :=
  ⟨by norm_num, by norm_num,
    C3_amortization_invariants 1200000 (9/100) 10000 5 (by norm_num) (by norm_num)⟩

set_option maxHeartbeats 2000000 in
/-- Counterexample to C3 as stated: in the optimized schedule generated for
the default loan (principal 1,200,000, annual rate 9%, 5 years) with a
positive extra annual payment of 10,000, the row after the first 12-month
boundary does **not** open at the previous row's closing balance (the extra
payment is applied to the balance between the two rows). -/
theorem C3_counterexample :
    ¬ List.Chain' (fun a b => b.beginningBalance = a.endingBalance)
      (Loan.generate_repayment_schedule 1200000 (9/100) 5 10000) := by
  intro hchain
  have hgen : Loan.generate_repayment_schedule 1200000 (9/100) 5 10000 =
      Loan.scheduleAux ((9:ℚ)/100 / 12) 10000 (5 * 12) 6
        (if (9:ℚ)/100 / 12 = 0 then
          (if 0 < 5 * 12 then (1200000:ℚ) / ((5 * 12 : ℕ) : ℚ) else 0)
         else 1200000 * ((9:ℚ)/100 / 12) * (1 + (9:ℚ)/100 / 12) ^ (5 * 12) /
           ((1 + (9:ℚ)/100 / 12) ^ (5 * 12) - 1)) 1200000 := rfl
  rw [hgen] at hchain
  set e : ℚ :=
    (if (9:ℚ)/100 / 12 = 0 then
      (if 0 < 5 * 12 then (1200000:ℚ) / ((5 * 12 : ℕ) : ℚ) else 0)
     else 1200000 * ((9:ℚ)/100 / 12) * (1 + (9:ℚ)/100 / 12) ^ (5 * 12) /
       ((1 + (9:ℚ)/100 / 12) ^ (5 * 12) - 1)) with hedef
  have hr0 : ¬ ((9:ℚ)/100 / 12 = 0) := by norm_num
  have hX : (29/20 : ℚ) ≤ (1 + (9:ℚ)/100 / 12) ^ (5 * 12) := by
    calc (29/20 : ℚ) = 1 + (5 * 12 : ℕ) * ((9:ℚ)/100 / 12) := by norm_num
      _ ≤ (1 + (9:ℚ)/100 / 12) ^ (5 * 12) := one_add_mul_le_pow (by norm_num) (5 * 12)
  have hX1 : (0:ℚ) < (1 + (9:ℚ)/100 / 12) ^ (5 * 12) - 1 := by linarith
  have hub : e ≤ 29000 := by
    rw [hedef, if_neg hr0, div_le_iff hX1]
    nlinarith
  have hlb : (0:ℚ) ≤ e := by
    rw [hedef, if_neg hr0]
    positivity
  have hr12 : (0:ℚ) < (9:ℚ)/100 / 12 := by norm_num
  -- row 0 (month 6)
  rw [Loan.scheduleAux_step_reg (by norm_num) (by intro hcon; linarith) hr12
    (by intro hcon; exact absurd hcon.1 (by norm_num))] at hchain
  set b1 : ℚ := 1200000 - (e - 1200000 * ((9:ℚ)/100 / 12)) with hb1def
  have hB1 : (1180000:ℚ) ≤ b1 ∧ b1 ≤ (1209000:ℚ) := by
    rw [hb1def]
    constructor <;> nlinarith
  -- row 1 (month 7)
  rw [Loan.scheduleAux_step_reg (by linarith [hB1.1]) (by intro hcon; linarith [hB1.1]) hr12
    (by intro hcon; exact absurd hcon.1 (by norm_num))] at hchain
  set b2 : ℚ := b1 - (e - b1 * ((9:ℚ)/100 / 12)) with hb2def
  have hB2 : (1151000:ℚ) ≤ b2 ∧ b2 ≤ (1219000:ℚ) := by
    rw [hb2def]
    constructor <;> nlinarith [hB1.1, hB1.2]
  -- row 2 (month 8)
  rw [Loan.scheduleAux_step_reg (by linarith [hB2.1]) (by intro hcon; linarith [hB2.1]) hr12
    (by intro hcon; exact absurd hcon.1 (by norm_num))] at hchain
  set b3 : ℚ := b2 - (e - b2 * ((9:ℚ)/100 / 12)) with hb3def
  have hB3 : (1122000:ℚ) ≤ b3 ∧ b3 ≤ (1229000:ℚ) := by
    rw [hb3def]
    constructor <;> nlinarith [hB2.1, hB2.2]
  -- row 3 (month 9)
  rw [Loan.scheduleAux_step_reg (by linarith [hB3.1]) (by intro hcon; linarith [hB3.1]) hr12
    (by intro hcon; exact absurd hcon.1 (by norm_num))] at hchain
  set b4 : ℚ := b3 - (e - b3 * ((9:ℚ)/100 / 12)) with hb4def
  have hB4 : (1093000:ℚ) ≤ b4 ∧ b4 ≤ (1239000:ℚ) := by
    rw [hb4def]
    constructor <;> nlinarith [hB3.1, hB3.2]
  -- row 4 (month 10)
  rw [Loan.scheduleAux_step_reg (by linarith [hB4.1]) (by intro hcon; linarith [hB4.1]) hr12
    (by intro hcon; exact absurd hcon.1 (by norm_num))] at hchain
  set b5 : ℚ := b4 - (e - b4 * ((9:ℚ)/100 / 12)) with hb5def
  have hB5 : (1064000:ℚ) ≤ b5 ∧ b5 ≤ (1249000:ℚ) := by
    rw [hb5def]
    constructor <;> nlinarith [hB4.1, hB4.2]
  -- row 5 (month 11): crosses the 12-month boundary
  have hend5 : (1035000:ℚ) ≤ b5 - (e - b5 * ((9:ℚ)/100 / 12)) := by
    nlinarith [hB5.1, hB5.2]
  rw [Loan.scheduleAux_step_bdry (by linarith [hB5.1]) (by intro hcon; linarith [hB5.1]) hr12
    (by norm_num) (by norm_num) (by linarith)] at hchain
  set e5 : ℚ := b5 - (e - b5 * ((9:ℚ)/100 / 12)) with he5def
  have hmin : min e5 (10000:ℚ) = 10000 := min_eq_right (by rw [he5def]; linarith)
  set b6 : ℚ := e5 - min e5 10000 with hb6def
  have hb6 : b6 = e5 - 10000 := by rw [hb6def, hmin]
  -- row 6 (month 12)
  rw [Loan.scheduleAux_step_reg (by rw [hb6]; linarith) (by rw [hb6]; linarith) hr12
    (by intro hcon; exact absurd hcon.1 (by norm_num))] at hchain
  simp only [List.chain'_cons] at hchain
  have hrel := hchain.2.2.2.2.2.1
  rw [hb6] at hrel
  linarith [hrel]

/-- `ratFloor` agrees with the mathematical floor. -/
theorem ratFloor_eq_floor (q : ℚ) : ratFloor q = ⌊q⌋ := by
  rw [Rat.floor_def]
  unfold ratFloor
  exact Int.fdiv_eq_ediv _ (by positivity)

/-- Half-to-even rounding moves a value by at most one half. -/
theorem roundHalfEven_bounds (q : ℚ) :
    q - 1/2 ≤ (roundHalfEven q : ℚ) ∧ (roundHalfEven q : ℚ) ≤ q + 1/2 := by
  unfold roundHalfEven
  rw [ratFloor_eq_floor]
  have h1 : (⌊q⌋ : ℚ) ≤ q := Int.floor_le q
  have h2 : q < (⌊q⌋ : ℚ) + 1 := Int.lt_floor_add_one q
  dsimp only
  split_ifs with ha hb hc <;> push_cast <;> constructor <;> linarith

/-- Rounding to two decimals moves a value by at most 1/200. -/
theorem round2_bounds (q : ℚ) :
    q - 1/200 ≤ round2 q ∧ round2 q ≤ q + 1/200 := by
  unfold round2
  obtain ⟨h1, h2⟩ := roundHalfEven_bounds (q * 100)
  constructor
  · rw [le_div_iff (by norm_num : (0:ℚ) < 100)]
    linarith
  · rw [div_le_iff (by norm_num : (0:ℚ) < 100)]
    linarith

/-- The EMI recomputed by `dynamic_threshold_adjuster` from the default loan
terms lies between 20,000 and 29,000. -/
theorem Loan.adjusterEmi_bounds :
    (20000:ℚ) ≤ Loan.adjusterEmi ∧ Loan.adjusterEmi ≤ 29000 := by
  have h0 : Loan.adjusterEmi =
      1200000 * ((9:ℚ)/100 / 12) * (1 + (9:ℚ)/100 / 12) ^ (5 * 12) /
        ((1 + (9:ℚ)/100 / 12) ^ (5 * 12) - 1) := by
    simp only [Loan.adjusterEmi, Loan.LOAN_AMOUNT, Loan.INTEREST_RATE, Loan.LOAN_YEARS]
    rw [if_neg (by norm_num)]
  have hXlb : (29/20 : ℚ) ≤ (1 + (9:ℚ)/100 / 12) ^ (5 * 12) := by
    calc (29/20 : ℚ) = 1 + (5 * 12 : ℕ) * ((9:ℚ)/100 / 12) := by norm_num
      _ ≤ (1 + (9:ℚ)/100 / 12) ^ (5 * 12) := one_add_mul_le_pow (by norm_num) (5 * 12)
  have hXone : (0:ℚ) < (1 + (9:ℚ)/100 / 12) ^ (5 * 12) - 1 := by linarith
  have hql : (11/20 : ℚ) ≤ (1 - (9:ℚ)/100 / 12) ^ (5 * 12) := by
    calc (11/20 : ℚ) = 1 + (5 * 12 : ℕ) * (-((9:ℚ)/100 / 12)) := by norm_num
      _ ≤ (1 + -((9:ℚ)/100 / 12)) ^ (5 * 12) := one_add_mul_le_pow (by norm_num) (5 * 12)
      _ = (1 - (9:ℚ)/100 / 12) ^ (5 * 12) := by ring_nf
  have hprod : (1 - (9:ℚ)/100 / 12) ^ (5 * 12) * (1 + (9:ℚ)/100 / 12) ^ (5 * 12) ≤ 1 := by
    rw [← mul_pow]
    exact pow_le_one₀ (by norm_num) (by norm_num)
  have hXub : (1 + (9:ℚ)/100 / 12) ^ (5 * 12) ≤ 20/11 := by
    nlinarith [hXlb, hql, hprod]
  rw [h0]
  constructor
  · rw [le_div_iff hXone]
    nlinarith [hXub]
  · rw [div_le_iff hXone]
    nlinarith [hXlb]

/-- The core's reported monthly EMI is the two-decimal rounding of the same
default-loan EMI that `dynamic_threshold_adjuster` recomputes. -/
theorem Loan.monthly_emi_eq : Loan.monthly_emi = round2 Loan.adjusterEmi := by
  have hgen : Loan.generate_repayment_schedule Loan.LOAN_AMOUNT Loan.INTEREST_RATE
      Loan.LOAN_YEARS 0 =
      Loan.scheduleAux (Loan.INTEREST_RATE / 12) 0 (Loan.LOAN_YEARS * 12) 6
        Loan.adjusterEmi Loan.LOAN_AMOUNT := rfl
  have hclip : ¬ Loan.LOAN_AMOUNT < Loan.adjusterEmi := by
    have := Loan.adjusterEmi_bounds.2
    simp only [Loan.LOAN_AMOUNT]
    linarith
  have hstep := @Loan.scheduleAux_step_reg (Loan.INTEREST_RATE / 12) 0 59 6
    Loan.adjusterEmi Loan.LOAN_AMOUNT
    (by simp only [Loan.LOAN_AMOUNT]; norm_num) hclip
    (by simp only [Loan.INTEREST_RATE]; norm_num)
    (fun hcon => absurd hcon.2.1 (lt_irrefl 0))
  unfold Loan.monthly_emi
  rw [hgen,
    show Loan.scheduleAux (Loan.INTEREST_RATE / 12) 0 (Loan.LOAN_YEARS * 12) 6
        Loan.adjusterEmi Loan.LOAN_AMOUNT =
      (⟨Loan.LOAN_AMOUNT, Loan.adjusterEmi,
        Loan.adjusterEmi - Loan.LOAN_AMOUNT * (Loan.INTEREST_RATE / 12),
        Loan.LOAN_AMOUNT * (Loan.INTEREST_RATE / 12),
        Loan.LOAN_AMOUNT - (Loan.adjusterEmi -
          Loan.LOAN_AMOUNT * (Loan.INTEREST_RATE / 12))⟩ : Loan.SchedRow) ::
        Loan.scheduleAux (Loan.INTEREST_RATE / 12) 0 59 7 Loan.adjusterEmi
          (Loan.LOAN_AMOUNT - (Loan.adjusterEmi -
            Loan.LOAN_AMOUNT * (Loan.INTEREST_RATE / 12))) from hstep]
  rfl

/-- The reported monthly EMI lies between 19,999 and 29,001. -/
theorem Loan.monthly_emi_bounds :
    (19999:ℚ) ≤ Loan.monthly_emi ∧ Loan.monthly_emi ≤ 29001 := by
  rw [Loan.monthly_emi_eq]
  obtain ⟨h1, h2⟩ := round2_bounds Loan.adjusterEmi
  obtain ⟨h3, h4⟩ := Loan.adjusterEmi_bounds
  constructor <;> linarith

set_option maxHeartbeats 1000000 in
/-- C5 (code bug): the per-month threshold derivation deducts the EMI twice.
The core passes `remaining = max(salary - monthly_emi, 0)` into
`dynamic_threshold_adjuster`'s `salary` parameter, which subtracts its own
recomputed EMI again.  At a month salary of 60,000 with lifestyle
Bachelor_Living_Alone, the food threshold actually computed equals
`max(0, round(max(max(salary - EMI, 0) - EMI, 0) * 12%, 2))` and differs
from the claimed `max(salary - EMI, 0) * 12%`. -/
theorem C5_threshold_double_emi_deduction :
    (lookupD (Loan.monthThresholds 60000 "Bachelor_Living_Alone") "food" =
      max 0 (round2 (max (max ((60000:ℚ) - Loan.monthly_emi) 0 - Loan.adjusterEmi) 0 *
        (12/100)))) ∧
    lookupD (Loan.monthThresholds 60000 "Bachelor_Living_Alone") "food" ≠
      max ((60000:ℚ) - Loan.monthly_emi) 0 * (12/100) := by
  obtain ⟨hm1, hm2⟩ := Loan.monthly_emi_bounds
  obtain ⟨ha1, ha2⟩ := Loan.adjusterEmi_bounds
  have hfood : lookupD (Loan.monthThresholds 60000 "Bachelor_Living_Alone") "food" =
      max 0 (round2 (max (max ((60000:ℚ) - Loan.monthly_emi) 0 - Loan.adjusterEmi) 0 *
        (12/100))) := by
    simp only [Loan.monthThresholds, Loan.dynamic_threshold_adjuster,
      Loan.LOAN_OPTIMIZATION_BASE_CATEGORIES, Loan.adjustPerc]
    simp only [List.filter_cons, List.filter_nil, List.map_cons, List.map_nil]
    norm_num [lookupD]
    rw [if_neg (by decide :
      ¬ ("Bachelor_Living_Alone" = "Unmarried_but_Living_with_family"))]
  refine ⟨hfood, ?_⟩
  rw [hfood]
  have hmax1 : max ((60000:ℚ) - Loan.monthly_emi) 0 = 60000 - Loan.monthly_emi :=
    max_eq_left (by linarith)
  have hmax2 : max ((60000:ℚ) - Loan.monthly_emi - Loan.adjusterEmi) 0 =
      60000 - Loan.monthly_emi - Loan.adjusterEmi := max_eq_left (by linarith)
  rw [hmax1, hmax2]
  have hr2 := (round2_bounds
    ((60000 - Loan.monthly_emi - Loan.adjusterEmi) * (12/100))).2
  intro heq
  have hcode_ub : max 0 (round2
      ((60000 - Loan.monthly_emi - Loan.adjusterEmi) * (12/100))) ≤ 2401 := by
    apply max_le (by norm_num)
    nlinarith
  have hclaim_lb : (3719:ℚ) ≤ (60000 - Loan.monthly_emi) * (12/100) := by nlinarith
  rw [heq] at hcode_ub
  linarith

/-- C9 (amended): on a non-empty input whose rows all fail date parsing, the
pipeline does not raise and does not return the structured error either: it
returns a normal result with empty categorized transactions and an empty
monthly summary (distinguishable from a non-empty analysis only by
emptiness); the structured error is produced exactly for an empty input
list. -/
theorem C9_empty_after_date_parse :
    (∀ txns : List Loan.RawTxn, txns ≠ [] → (∀ t ∈ txns, t.month = none) →
      Loan.loan_optimization_pipeline txns =
        Loan.LoanOptResult.ok
          ⟨"Unmarried_but_Living_with_family", Loan.monthly_emi, [], [], 0⟩) ∧
    Loan.loan_optimization_pipeline [] =
      Loan.LoanOptResult.error "No transaction data provided for loan optimization." := by
  constructor
  · intro txns hne hnone
    match txns, hne with
    | t :: rest, _ =>
      have hfilter :
          ((t :: rest).map (fun t =>
            ({ month := t.month, category := t.category.getD "Other", amount := t.amount,
               description := t.description, type := t.type } : Loan.LoanTxn))).filter
            (fun t => t.month.isSome) = [] := by
        rw [List.filter_eq_nil]
        intro a ha
        obtain ⟨b, hb, hba⟩ := List.mem_map.mp ha
        rw [← hba]
        simp [hnone b hb]
      simp only [Loan.loan_optimization_pipeline, Loan._run_loan_optimization_core, hfilter]
      simp [Loan.infer_lifestyle]
  · rfl

/-- Witness for C9 at a concrete one-row input with an unparseable date. -/
theorem C9_witness :
    ([(⟨none, some "food", 250, "lunch", "sent"⟩ : Loan.RawTxn)] ≠ []) ∧
    Loan.loan_optimization_pipeline [⟨none, some "food", 250, "lunch", "sent"⟩] =
      Loan.LoanOptResult.ok
        ⟨"Unmarried_but_Living_with_family", Loan.monthly_emi, [], [], 0⟩ := by
  refine ⟨by simp, ?_⟩
  exact C9_empty_after_date_parse.1 _ (by simp) (by intro t ht; simp at ht; rw [ht])

/-- Counterexample to C9 as stated: for a non-empty batch whose single row's
date fails to parse, the pipeline's result is a normal (non-error) result —
not the structured error result the claim requires. -/
theorem C9_counterexample :
    (Loan.loan_optimization_pipeline [⟨none, none, 100, "shopping", "sent"⟩] =
      Loan.LoanOptResult.ok
        ⟨"Unmarried_but_Living_with_family", Loan.monthly_emi, [], [], 0⟩) ∧
    ∀ msg : String,
      Loan.loan_optimization_pipeline [⟨none, none, 100, "shopping", "sent"⟩] ≠
        Loan.LoanOptResult.error msg := by
  have h : Loan.loan_optimization_pipeline [⟨none, none, 100, "shopping", "sent"⟩] =
      Loan.LoanOptResult.ok
        ⟨"Unmarried_but_Living_with_family", Loan.monthly_emi, [], [], 0⟩ := by
    have hfilter :
        (([(⟨none, none, 100, "shopping", "sent"⟩ : Loan.RawTxn)]).map (fun t =>
          ({ month := t.month, category := t.category.getD "Other", amount := t.amount,
             description := t.description, type := t.type } : Loan.LoanTxn))).filter
          (fun t => t.month.isSome) = [] := by simp
    simp only [Loan.loan_optimization_pipeline, Loan._run_loan_optimization_core, hfilter]
    simp [Loan.infer_lifestyle]
  exact ⟨h, fun msg hcon => by rw [h] at hcon; exact Loan.LoanOptResult.noConfusion hcon⟩
